import Mathlib

/-!
Verification model of the confusion-bank session classification and review
generation pipeline.  Python strings are modeled as lists of characters
(`Str`), the SQLite store as an explicit record of tables, and every call to
the external completion service as an explicit `Except Unit String` argument
(`Except.error ()` models a network/service failure; `Except.ok t` models a
response with text `t`).  JSON numbers are modeled as integers: every payload
exchanged by this program (course ids, conversation ids, scores) is integral.
-/

/-- Python strings, modeled as lists of characters. -/
abbrev Str := List Char

/-- The character set removed by Python `str.strip()` (ASCII whitespace). -/
def isPySpace (c : Char) : Bool :=
  c = ' ' || c = '\t' || c = '\n' || c = '\r' || c = '\x0b' || c = '\x0c'

/-- Python `str.strip()`: drop whitespace from both ends. -/
def pyStrip (s : Str) : Str :=
  ((s.dropWhile isPySpace).reverse.dropWhile isPySpace).reverse

/-- `occursAt s sub i` holds when `sub` appears in `s` starting at index `i`. -/
def occursAt (s sub : Str) (i : Nat) : Prop :=
  (s.drop i).take sub.length = sub

instance (s sub : Str) (i : Nat) : Decidable (occursAt s sub i) := by
  unfold occursAt; infer_instance

/-- Boolean form of `occursAt`. -/
def occursAtB (s sub : Str) (i : Nat) : Bool :=
  (s.drop i).take sub.length == sub

theorem occursAtB_eq_true_iff (s sub : Str) (i : Nat) :
    occursAtB s sub i = true ↔ occursAt s sub i := by
  simp [occursAtB, occursAt]

/-- First index `≥ start` at which `sub` occurs in `s` (Python `str.find`,
with `none` standing for Python's `-1`). -/
def findFrom (s sub : Str) (start : Nat) : Option Nat :=
  (List.range' start (s.length + 1 - start)).find? (occursAtB s sub)

/-- Last index at which `sub` occurs in `s` (Python `str.rfind`). -/
def rfindIn (s sub : Str) : Option Nat :=
  (List.range' 0 (s.length + 1)).reverse.find? (occursAtB s sub)

/-- Python `sub in s` substring containment. -/
def containsSub (s sub : Str) : Bool :=
  (findFrom s sub 0).isSome

/-- Python `str.find` with its `-1` failure convention. -/
def pyFind (s sub : Str) (start : Nat) : Int :=
  match findFrom s sub start with
  | some i => Int.ofNat i
  | none => -1

/-- Python `str.rfind` with its `-1` failure convention. -/
def pyRfind (s sub : Str) : Int :=
  match rfindIn s sub with
  | some i => Int.ofNat i
  | none => -1

/-- Normalize a Python slice bound against a length (negative counts from
the end, results clamped into `[0, n]`). -/
def pySliceIdx (n : Nat) (i : Int) : Nat :=
  if i < 0 then (i + n).toNat else min i.toNat n

/-- Python slicing `s[i:j]` with full negative-index semantics. -/
def pySlice (s : Str) (i j : Int) : Str :=
  (s.take (pySliceIdx s.length j)).drop (pySliceIdx s.length i)

/-- Simple slice `s[i:j]` for nonnegative indices. -/
def sliceNat (s : Str) (i j : Nat) : Str :=
  (s.take j).drop i

/-- Python `s[:n]` prefix truncation. -/
def pyTake (n : Nat) (s : Str) : Str := s.take n

section FindLemmas

theorem find?_range'_eq_some {p : Nat → Bool} :
    ∀ {n start i : Nat}, (List.range' start n).find? p = some i →
      p i = true ∧ start ≤ i ∧ i < start + n ∧ ∀ j, start ≤ j → j < i → p j = false := by
  intro n
  induction n with
  | zero => intro start i h; simp [List.range'] at h
  | succ m ih =>
    intro start i h
    rw [List.range'] at h
    rcases hps : p start with hf | ht
    · rw [List.find?_cons_of_neg _ (by simp [hps])] at h
      obtain ⟨h1, h2, h3, h4⟩ := ih h
      refine ⟨h1, by omega, by omega, ?_⟩
      intro j hj1 hj2
      rcases Nat.eq_or_lt_of_le hj1 with rfl | hlt
      · exact hps
      · exact h4 j hlt hj2
    · rw [List.find?_cons_of_pos _ (by simp [hps])] at h
      cases h
      exact ⟨hps, Nat.le_refl _, by omega, fun j h1 h2 => absurd h1 (by omega)⟩

theorem find?_range'_of_first {p : Nat → Bool} {n start i : Nat}
    (hp : p i = true) (h1 : start ≤ i) (h2 : i < start + n)
    (hmin : ∀ j, start ≤ j → j < i → p j = false) :
    (List.range' start n).find? p = some i := by
  induction n generalizing start with
  | zero => omega
  | succ m ih =>
    rw [List.range']
    rcases Nat.eq_or_lt_of_le h1 with rfl | hlt
    · rw [List.find?_cons_of_pos _ (by simp [hp])]
    · rw [List.find?_cons_of_neg _ (by simp [hmin start (Nat.le_refl _) hlt])]
      exact ih (by omega) (by omega) (fun j hj1 hj2 => hmin j (by omega) hj2)

theorem occursAt_length_le {s sub : Str} {i : Nat} (hsub : sub ≠ [])
    (h : occursAt s sub i) : i + sub.length ≤ s.length := by
  unfold occursAt at h
  have hlen : ((s.drop i).take sub.length).length = sub.length := by rw [h]
  rw [List.length_take, List.length_drop] at hlen
  have hpos : 0 < sub.length := List.length_pos.mpr hsub
  omega

theorem findFrom_eq_some_iff {s sub : Str} {start i : Nat} (hsub : sub ≠ []) :
    findFrom s sub start = some i ↔
      occursAt s sub i ∧ start ≤ i ∧
        ∀ j, start ≤ j → j < i → ¬ occursAt s sub j := by
  constructor
  · intro h
    obtain ⟨h1, h2, _, h4⟩ := find?_range'_eq_some h
    refine ⟨(occursAtB_eq_true_iff _ _ _).mp h1, h2, ?_⟩
    intro j hj1 hj2 hocc
    have := h4 j hj1 hj2
    rw [(occursAtB_eq_true_iff s sub j).2 hocc] at this
    exact Bool.noConfusion this
  · rintro ⟨h1, h2, h3⟩
    apply find?_range'_of_first ((occursAtB_eq_true_iff _ _ _).2 h1) h2
    · have := occursAt_length_le hsub h1
      have hpos : 0 < sub.length := List.length_pos.mpr hsub
      omega
    · intro j hj1 hj2
      rcases hb : occursAtB s sub j with hf | ht
      · rfl
      · exact absurd ((occursAtB_eq_true_iff _ _ _).mp hb) (h3 j hj1 hj2)

theorem reverse_range'_find?_eq_some {p : Nat → Bool} :
    ∀ {n i : Nat}, (List.range' 0 n).reverse.find? p = some i →
      p i = true ∧ i < n ∧ ∀ j, i < j → j < n → p j = false := by
  intro n
  induction n with
  | zero => intro i h; simp [List.range'] at h
  | succ m ih =>
    intro i h
    rw [List.range'_1_concat, List.reverse_append] at h
    simp only [List.reverse_singleton, List.singleton_append, Nat.zero_add] at h
    rcases hpm : p m with hf | ht
    · rw [List.find?_cons_of_neg _ (by simp [hpm])] at h
      obtain ⟨h1, h2, h3⟩ := ih h
      refine ⟨h1, by omega, ?_⟩
      intro j hj1 hj2
      rcases Nat.lt_succ_iff_lt_or_eq.mp hj2 with hlt | rfl
      · exact h3 j hj1 hlt
      · exact hpm
    · rw [List.find?_cons_of_pos _ (by simp [hpm])] at h
      cases h
      exact ⟨hpm, Nat.lt_succ_self _, fun j h1 h2 => by omega⟩

theorem reverse_range'_find?_of_last {p : Nat → Bool} {n i : Nat}
    (hp : p i = true) (h2 : i < n)
    (hmax : ∀ j, i < j → j < n → p j = false) :
    (List.range' 0 n).reverse.find? p = some i := by
  induction n with
  | zero => omega
  | succ m ih =>
    rw [List.range'_1_concat, List.reverse_append]
    simp only [List.reverse_singleton, List.singleton_append, Nat.zero_add]
    rcases Nat.lt_succ_iff_lt_or_eq.mp h2 with hlt | rfl
    · rw [List.find?_cons_of_neg _ (by simp [hmax m hlt (Nat.lt_succ_self _)])]
      exact ih hlt (fun j hj1 hj2 => hmax j hj1 (by omega))
    · rw [List.find?_cons_of_pos _ (by simp [hp])]

theorem rfindIn_eq_some_iff {s sub : Str} {i : Nat} (hsub : sub ≠ []) :
    rfindIn s sub = some i ↔
      occursAt s sub i ∧ ∀ j, i < j → ¬ occursAt s sub j := by
  constructor
  · intro h
    obtain ⟨h1, h2, h3⟩ := reverse_range'_find?_eq_some h
    refine ⟨(occursAtB_eq_true_iff _ _ _).mp h1, ?_⟩
    intro j hj hocc
    have hle := occursAt_length_le hsub hocc
    have hpos : 0 < sub.length := List.length_pos.mpr hsub
    have hjb : j < s.length + 1 := by omega
    have := h3 j hj hjb
    rw [(occursAtB_eq_true_iff s sub j).2 hocc] at this
    exact Bool.noConfusion this
  · rintro ⟨h1, h2⟩
    apply reverse_range'_find?_of_last ((occursAtB_eq_true_iff _ _ _).2 h1)
    · have := occursAt_length_le hsub h1
      have hpos : 0 < sub.length := List.length_pos.mpr hsub
      omega
    · intro j hj1 hj2
      rcases hb : occursAtB s sub j with hf | ht
      · rfl
      · exact absurd ((occursAtB_eq_true_iff _ _ _).mp hb) (h2 j hj1)

theorem containsSub_eq_false_iff {s sub : Str} (hsub : sub ≠ []) :
    containsSub s sub = false ↔ ∀ j, ¬ occursAt s sub j := by
  unfold containsSub
  constructor
  · intro h j hocc
    have hle := occursAt_length_le hsub hocc
    have hpos : 0 < sub.length := List.length_pos.mpr hsub
    have : findFrom s sub 0 = none := by
      rcases hf : findFrom s sub 0 with _ | k
      · rfl
      · rw [hf] at h; simp at h
    unfold findFrom at this
    have hmem : j ∈ List.range' 0 (s.length + 1 - 0) := by
      simp [List.mem_range']
      omega
    have := List.find?_eq_none.mp this j hmem
    rw [(occursAtB_eq_true_iff s sub j).2 hocc] at this
    exact this rfl
  · intro h
    rcases hf : findFrom s sub 0 with _ | k
    · rfl
    · exact absurd ((findFrom_eq_some_iff hsub).mp hf).1 (h k)

end FindLemmas

/-! ## JSON values and `json.loads` / `json.dumps` -/

/-- JSON values, as produced by Python `json.loads` (numbers restricted to
integers; every payload this program exchanges is integral). -/
inductive Json where
  | null : Json
  | bool (b : Bool) : Json
  | num (n : Int) : Json
  | str (s : Str) : Json
  | arr (elems : List Json) : Json
  | obj (fields : List (Str × Json)) : Json

/-- Python dict insertion `d[k] = v`: replace in place if the key exists,
otherwise append (preserves Python dict insertion order). -/
def insertKV (kvs : List (Str × Json)) (k : Str) (v : Json) : List (Str × Json) :=
  match kvs with
  | [] => [(k, v)]
  | (k0, v0) :: rest =>
    if k0 = k then (k0, v) :: rest else (k0, v0) :: insertKV rest k v

/-- Python `k in d` dict key membership. -/
def containsKey (kvs : List (Str × Json)) (k : Str) : Bool :=
  kvs.any (fun p => p.1 == k)

/-- Python `d.get(k, default)`. -/
def pyGetD (kvs : List (Str × Json)) (k : Str) (d : Json) : Json :=
  match kvs.find? (fun p => p.1 == k) with
  | some p => p.2
  | none => d

/-- Python `d[k]` where the key is known to be present (`null` otherwise). -/
def pyGet (kvs : List (Str × Json)) (k : Str) : Json := pyGetD kvs k Json.null

/-- Python truthiness of a JSON-shaped value (`if value:`). -/
def pyTruthy : Json → Bool
  | Json.null => false
  | Json.bool b => b
  | Json.num n => n != 0
  | Json.str s => !s.isEmpty
  | Json.arr elems => !elems.isEmpty
  | Json.obj fields => !fields.isEmpty

/-- JSON whitespace accepted by `json.loads` between tokens. -/
def isJsonWs (c : Char) : Bool :=
  c = ' ' || c = '\t' || c = '\n' || c = '\r'

def skipWs (cs : Str) : Str := cs.dropWhile isJsonWs

/-- Decode four hex digits of a `\uXXXX` escape. -/
def hexVal (c : Char) : Option Nat :=
  if '0' ≤ c ∧ c ≤ '9' then some (c.toNat - '0'.toNat)
  else if 'a' ≤ c ∧ c ≤ 'f' then some (c.toNat - 'a'.toNat + 10)
  else if 'A' ≤ c ∧ c ≤ 'F' then some (c.toNat - 'A'.toNat + 10)
  else none

/-- Parse the remainder of a JSON string literal (after the opening quote).
Unicode escapes outside the valid scalar range decode to U+FFFD. -/
def parseStringRest : Str → Option (Str × Str)
  | [] => none
  | '"' :: rest => some ([], rest)
  | '\\' :: esc =>
    match esc with
    | '"' :: rest => (parseStringRest rest).map (fun p => ('"' :: p.1, p.2))
    | '\\' :: rest => (parseStringRest rest).map (fun p => ('\\' :: p.1, p.2))
    | '/' :: rest => (parseStringRest rest).map (fun p => ('/' :: p.1, p.2))
    | 'b' :: rest => (parseStringRest rest).map (fun p => ('\x08' :: p.1, p.2))
    | 'f' :: rest => (parseStringRest rest).map (fun p => ('\x0c' :: p.1, p.2))
    | 'n' :: rest => (parseStringRest rest).map (fun p => ('\n' :: p.1, p.2))
    | 'r' :: rest => (parseStringRest rest).map (fun p => ('\r' :: p.1, p.2))
    | 't' :: rest => (parseStringRest rest).map (fun p => ('\t' :: p.1, p.2))
    | 'u' :: a :: b :: c :: d :: rest =>
      match hexVal a, hexVal b, hexVal c, hexVal d with
      | some ha, some hb, some hc, some hd =>
        let n := ((ha * 16 + hb) * 16 + hc) * 16 + hd
        let ch := if h : n.isValidChar then Char.ofNatAux n h else '\xfd'
        (parseStringRest rest).map (fun p => (ch :: p.1, p.2))
      | _, _, _, _ => none
    | _ => none
  | c :: rest =>
    if c.toNat < 0x20 then none
    else (parseStringRest rest).map (fun p => (c :: p.1, p.2))

/-- Parse a run of decimal digits. -/
def parseDigits : Str → Nat → Option (Nat × Str)
  | c :: rest, acc =>
    if c.isDigit then
      match parseDigits rest (acc * 10 + (c.toNat - '0'.toNat)) with
      | some r => some r
      | none => some (acc * 10 + (c.toNat - '0'.toNat), rest)
    else none
  | [], _ => none

/-- Parse a JSON integer literal (sign and digits, no leading zeros, and no
fraction/exponent continuation: float literals are outside this model). -/
def parseNumber (cs : Str) : Option (Json × Str) :=
  let (neg, body) := match cs with
    | '-' :: rest => (true, rest)
    | _ => (false, cs)
  match body with
  | [] => none
  | c :: tailBody =>
    if ¬ c.isDigit then none
    else if c == '0' && (match tailBody with | d :: _ => d.isDigit | [] => false) then none
    else match parseDigits body 0 with
      | some (n, rest) =>
        match rest with
        | '.' :: _ => none
        | 'e' :: _ => none
        | 'E' :: _ => none
        | _ => some (Json.num (if neg then -(n : Int) else (n : Int)), rest)
      | none => none

mutual

/-- Parse one JSON value from the front of the input. -/
def parseValue : Nat → Str → Option (Json × Str)
  | 0, _ => none
  | fuel + 1, cs =>
    match skipWs cs with
    | '{' :: rest =>
      (match skipWs rest with
       | '}' :: r2 => some (Json.obj [], r2)
       | _ => parseMembers fuel rest [])
    | '[' :: rest =>
      (match skipWs rest with
       | ']' :: r2 => some (Json.arr [], r2)
       | _ => parseElems fuel rest [])
    | '"' :: rest => (parseStringRest rest).map (fun p => (Json.str p.1, p.2))
    | 't' :: 'r' :: 'u' :: 'e' :: rest => some (Json.bool true, rest)
    | 'f' :: 'a' :: 'l' :: 's' :: 'e' :: rest => some (Json.bool false, rest)
    | 'n' :: 'u' :: 'l' :: 'l' :: rest => some (Json.null, rest)
    | c :: rest =>
      if c = '-' ∨ c.isDigit then parseNumber (c :: rest) else none
    | [] => none

/-- Parse the members of a JSON object (after the opening brace, at least one
member expected).  Duplicate keys: the last occurrence wins, at the position
of the first (Python dict semantics). -/
def parseMembers : Nat → Str → List (Str × Json) → Option (Json × Str)
  | 0, _, _ => none
  | fuel + 1, cs, acc =>
    match skipWs cs with
    | '"' :: rest =>
      match parseStringRest rest with
      | none => none
      | some (k, r1) =>
        match skipWs r1 with
        | ':' :: r2 =>
          match parseValue fuel r2 with
          | none => none
          | some (v, r3) =>
            let acc2 := insertKV acc k v
            match skipWs r3 with
            | ',' :: r4 => parseMembers fuel r4 acc2
            | '}' :: r4 => some (Json.obj acc2, r4)
            | _ => none
        | _ => none
    | _ => none

/-- Parse the elements of a JSON array (after the opening bracket, at least
one element expected). -/
def parseElems : Nat → Str → List Json → Option (Json × Str)
  | 0, _, _ => none
  | fuel + 1, cs, acc =>
    match parseValue fuel cs with
    | none => none
    | some (v, r1) =>
      let acc2 := acc ++ [v]
      match skipWs r1 with
      | ',' :: r2 => parseElems fuel r2 acc2
      | ']' :: r2 => some (Json.arr acc2, r2)
      | _ => none

end

/-- Python `json.loads`: the whole input must be one JSON document. -/
def jsonLoads (cs : Str) : Option Json :=
  match parseValue (cs.length + 1) cs with
  | some (v, rest) => if (skipWs rest).isEmpty then some v else none
  | none => none

/-- Hex digit characters (lowercase, as Python emits them). -/
def hexDigit (n : Nat) : Char :=
  if n < 10 then Char.ofNat ('0'.toNat + n)
  else Char.ofNat ('a'.toNat + (n - 10))

/-- Four-digit lowercase hex rendering of a code unit. -/
def hex4 (n : Nat) : Str :=
  [hexDigit (n / 4096 % 16), hexDigit (n / 256 % 16), hexDigit (n / 16 % 16), hexDigit (n % 16)]

/-- Escape one character the way Python `json.dumps` (ensure_ascii) does. -/
def dumpChar (c : Char) : Str :=
  if c = '"' then ['\\', '"']
  else if c = '\\' then ['\\', '\\']
  else if c = '\n' then ['\\', 'n']
  else if c = '\r' then ['\\', 'r']
  else if c = '\t' then ['\\', 't']
  else if c = '\x08' then ['\\', 'b']
  else if c = '\x0c' then ['\\', 'f']
  else if c.toNat < 0x20 ∨ c.toNat > 0x7e then
    if c.toNat ≤ 0xffff then '\\' :: 'u' :: hex4 c.toNat
    else
      let n := c.toNat - 0x10000
      ('\\' :: 'u' :: hex4 (0xd800 + n / 0x400)) ++ ('\\' :: 'u' :: hex4 (0xdc00 + n % 0x400))
  else [c]

/-- Python `json.dumps` of a string. -/
def dumpStr (s : Str) : Str :=
  '"' :: (s.flatMap dumpChar) ++ ['"']

/-- Decimal rendering of an integer as a character list. -/
def intChars (n : Int) : Str := (toString n).data

mutual

/-- Python `json.dumps` with its default separators. -/
def dumpJson : Json → Str
  | Json.null => "null".data
  | Json.bool true => "true".data
  | Json.bool false => "false".data
  | Json.num n => intChars n
  | Json.str s => dumpStr s
  | Json.arr elems => '[' :: dumpArr elems ++ [']']
  | Json.obj fields => '{' :: dumpObj fields ++ ['}']

def dumpArr : List Json → Str
  | [] => []
  | [x] => dumpJson x
  | x :: y :: rest => dumpJson x ++ (", ".data ++ dumpArr (y :: rest))

def dumpObj : List (Str × Json) → Str
  | [] => []
  | [(k, v)] => dumpStr k ++ (": ".data ++ dumpJson v)
  | (k, v) :: y :: rest => dumpStr k ++ (": ".data ++ dumpJson v) ++ (", ".data ++ dumpObj (y :: rest))

end

/-- Python `json.dumps` of a list of strings (how topic lists are stored). -/
def dumpStrList (ts : List Str) : Str :=
  dumpJson (Json.arr (ts.map Json.str))

/-! ## SQLite `LIKE` and the data model -/

/-- ASCII lowercase folding, as used by the SQLite `LIKE` operator
(case-insensitive for ASCII only). -/
def lowerA (c : Char) : Char :=
  if 'A' ≤ c ∧ c ≤ 'Z' then Char.ofNat (c.toNat + 32) else c

/-- Does `f` accept some suffix of the text?  (`%` consumes any prefix.) -/
def anySuffix (f : Str → Bool) : Str → Bool
  | [] => f []
  | c :: t => f (c :: t) || anySuffix f t

/-- SQLite `LIKE` pattern match: case-insensitive for ASCII, with the
wildcards `%` (any sequence) and `_` (any single character). -/
def likeM : Str → Str → Bool
  | [], t => t.isEmpty
  | '%' :: p, t => anySuffix (likeM p) t
  | '_' :: p, t =>
    (match t with
     | [] => false
     | _ :: t2 => likeM p t2)
  | a :: p, t =>
    (match t with
     | [] => false
     | c :: t2 => (lowerA a == lowerA c) && likeM p t2)

/-- The SQL parameter of `topics LIKE ?`, built by the source as the
f-string pattern enclosing the topic in double quotes between wildcards. -/
def topicPattern (topic : Str) : Str :=
  '%' :: '"' :: topic ++ ['"', '%']

/-- SQLite storage values (the course and unit columns after binding). -/
inductive SqlVal where
  | null : SqlVal
  | int (n : Int) : SqlVal
  | text (s : Str) : SqlVal
deriving DecidableEq

/-- Is a string the canonical decimal text of an integer?  (Used by SQLite
INTEGER column affinity to convert convertible text.) -/
def isIntText (s : Str) : Bool :=
  match s with
  | [] => false
  | _ => s == intChars ((parseDigits (match s with | '-' :: r => r | r => r) 0).elim 0
      (fun p => if s.head? = some '-' then -(p.1 : Int) else (p.1 : Int)))

/-- Bind a JSON-shaped Python value into a column with INTEGER affinity.
`none` models the `sqlite3.InterfaceError` raised for lists/dicts. -/
def bindIntAffinity : Json → Option SqlVal
  | Json.null => some SqlVal.null
  | Json.bool b => some (SqlVal.int (if b then 1 else 0))
  | Json.num n => some (SqlVal.int n)
  | Json.str s => some (if isIntText s then SqlVal.int ((jsonLoads s).elim 0 (fun j => match j with | Json.num n => n | _ => 0)) else SqlVal.text s)
  | Json.arr _ => none
  | Json.obj _ => none

/-- Bind a JSON-shaped Python value into a column with TEXT affinity. -/
def bindTextAffinity : Json → Option SqlVal
  | Json.null => some SqlVal.null
  | Json.bool b => some (SqlVal.text (intChars (if b then 1 else 0)))
  | Json.num n => some (SqlVal.text (intChars n))
  | Json.str s => some (SqlVal.text s)
  | Json.arr _ => none
  | Json.obj _ => none

/-- A row of the `conversations` table. -/
structure Conversation where
  id : Int
  session_id : Str
  user_message : Str
  ai_response : Str
  created_at : Nat
deriving DecidableEq

/-- A unit of a course's syllabus structure. -/
structure CourseUnit where
  name : Str
  topics : List Str
deriving DecidableEq

/-- A row of the `courses` table. -/
structure Course where
  id : Int
  name : Str
  units : List CourseUnit
deriving DecidableEq

/-- A row of the `confusion_points` table.  `topics` and
`confused_conversation_ids` hold the JSON text stored by `json.dumps`. -/
structure ConfusionRow where
  session_id : Str
  course_id : SqlVal
  unit : SqlVal
  topics : Str
  confused_conversation_ids : Str
  created_at : Nat
deriving DecidableEq

/-- The SQLite database.  `clock` models `CURRENT_TIMESTAMP` (monotonic). -/
structure DB where
  conversations : List Conversation
  courses : List Course
  confusion_points : List ConfusionRow
  clock : Nat
deriving DecidableEq

/-- Insertion into a list sorted ascending by key. -/
def insertAscBy (key : Conversation → Nat) (x : Conversation) :
    List Conversation → List Conversation
  | [] => [x]
  | y :: ys => if key x < key y then x :: y :: ys else y :: insertAscBy key x ys

/-- Sort ascending by key (models `ORDER BY created_at ASC`). -/
def sortAscBy (key : Conversation → Nat) (l : List Conversation) : List Conversation :=
  l.foldr (insertAscBy key) []

/-- `get_session_conversations`: all conversations of a session, ascending
by creation time. -/
def get_session_conversations (db : DB) (session_id : Str) : List Conversation :=
  sortAscBy (fun c => c.created_at)
    (db.conversations.filter (fun c => c.session_id == session_id))

/-- `get_courses`. -/
def get_courses (db : DB) : List Course := db.courses

/-- `check_session_needs_analysis`: true when the session has no confusion
record yet. -/
def check_session_needs_analysis (db : DB) (session_id : Str) : Bool :=
  !(db.confusion_points.any (fun r => r.session_id == session_id))

/-- `save_confusion_analysis`: insert one row into `confusion_points`.
`none` models the insert raising (unbindable parameter), in which case the
database is unchanged. -/
def save_confusion_analysis (db : DB) (session_id : Str)
    (course_id unit topics confused_conversation_ids : Json) : Option DB :=
  match bindIntAffinity course_id, bindTextAffinity unit with
  | some cid, some u =>
    some { db with
      confusion_points := db.confusion_points ++
        [{ session_id := session_id, course_id := cid, unit := u,
           topics := dumpJson topics,
           confused_conversation_ids := dumpJson confused_conversation_ids,
           created_at := db.clock }],
      clock := db.clock + 1 }
  | _, _ => none

/-- The row-level WHERE predicate built by `get_confusion_sessions`:
course and unit filters are added only for truthy arguments, and the topics
filter is a disjunction of `LIKE` conditions over the stored JSON text. -/
def confusionRowMatches (course_id : Option Int) (unit : Option Str)
    (topics : Option (List Str)) (r : ConfusionRow) : Bool :=
  (match course_id with
   | some c => if c ≠ 0 then r.course_id == SqlVal.int c else true
   | none => true) &&
  (match unit with
   | some u => if u ≠ [] then r.unit == SqlVal.text u else true
   | none => true) &&
  (match topics with
   | some ts => if ts ≠ [] then ts.any (fun t => likeM (topicPattern t) r.topics) else true
   | none => true)

/-- Insertion into a row list sorted descending by creation time. -/
def insertDescRow (x : ConfusionRow) : List ConfusionRow → List ConfusionRow
  | [] => [x]
  | y :: ys => if y.created_at ≤ x.created_at then x :: y :: ys else y :: insertDescRow x ys

/-- Sort descending by creation time (models `ORDER BY created_at DESC`). -/
def sortDescRows (l : List ConfusionRow) : List ConfusionRow :=
  l.foldr insertDescRow []

/-- Drop rows whose session id was already seen (models `SELECT DISTINCT`,
keeping the first occurrence in sorted order). -/
def dedupBySession (seen : List Str) : List ConfusionRow → List ConfusionRow
  | [] => []
  | r :: rest =>
    if r.session_id ∈ seen then dedupBySession seen rest
    else r :: dedupBySession (r.session_id :: seen) rest

/-- `get_confusion_sessions`: session ids of confusion rows matching the
criteria, ordered by record creation time descending. -/
def get_confusion_sessions (db : DB) (course_id : Option Int)
    (unit : Option Str) (topics : Option (List Str)) : List Str :=
  ((dedupBySession []
      (sortDescRows
        (db.confusion_points.filter (confusionRowMatches course_id unit topics)))).map
    (fun r => r.session_id))

/-- Rows of a given session. -/
def recordsFor (db : DB) (session_id : Str) : List ConfusionRow :=
  db.confusion_points.filter (fun r => r.session_id == session_id)

/-- Number of confusion records of a session. -/
def countRecords (db : DB) (session_id : Str) : Nat :=
  (recordsFor db session_id).length

/-! ## Completion-service response handling (`llm_service.py`) -/

/-- The defensive JSON extraction applied to a (stripped) completion
response: prefer a fenced block labeled `json`; otherwise take the
substring from the first brace to the last closing brace. -/
def extract_json_text (response_text : Str) : Str :=
  if containsSub response_text "```json".data then
    let json_start := pyFind response_text "```json".data 0 + 7
    let json_end := pyFind response_text "```".data json_start.toNat
    pyStrip (pySlice response_text json_start json_end)
  else if containsSub response_text "\x7b".data then
    let json_start := pyFind response_text "\x7b".data 0
    let json_end := pyRfind response_text "\x7d".data + 1
    pySlice response_text json_start json_end
  else response_text

/-- Strip a completion response and run the defensive extraction and
`json.loads` on it; `none` when the service call failed or no JSON document
could be parsed (the `except` path of every caller). -/
def llmJson (llm : Except Unit String) : Option Json :=
  match llm with
  | Except.error _ => none
  | Except.ok t => jsonLoads (extract_json_text (pyStrip t.data))

/-- The structured result of `analyze_session_confusion` (fields are raw
JSON values, as in the Python dict). -/
structure AnalysisResult where
  course_id : Json
  unit : Json
  topics : Json
  confused_conversation_ids : Json

/-- The empty analysis returned on any error. -/
def nullAnalysis : AnalysisResult :=
  { course_id := Json.null, unit := Json.null,
    topics := Json.arr [], confused_conversation_ids := Json.arr [] }

/-- `analyze_session_confusion`: classify a session transcript against the
course catalog.  The conversation list and catalog only shape the prompt;
the completion outcome is the explicit `llm` argument.  Any parsing or
service error yields the empty analysis. -/
def analyze_session_confusion (session_conversations : List Conversation)
    (courses : List Course) (llm : Except Unit String) : AnalysisResult :=
  match llmJson llm with
  | some (Json.obj kvs) =>
    { course_id := pyGetD kvs "course_id".data Json.null,
      unit := pyGetD kvs "unit".data Json.null,
      topics := pyGetD kvs "topics".data (Json.arr []),
      confused_conversation_ids := pyGetD kvs "confused_conversation_ids".data (Json.arr []) }
  | _ => nullAnalysis

/-- The structured result of `parse_review_request`. -/
structure ParsedRequest where
  course_id : Json
  unit : Json
  topics : Json

/-- The parse failure result `{course_id: None, unit: None, topics: []}`. -/
def nullParsedRequest : ParsedRequest :=
  { course_id := Json.null, unit := Json.null, topics := Json.arr [] }

/-- `parse_review_request`: turn a natural-language review request into
criteria.  Any parsing or service error yields the null request. -/
def parse_review_request (natural_language : Str) (courses : List Course)
    (llm : Except Unit String) : ParsedRequest :=
  match llmJson llm with
  | some (Json.obj kvs) =>
    { course_id := pyGetD kvs "course_id".data Json.null,
      unit := pyGetD kvs "unit".data Json.null,
      topics := pyGetD kvs "topics".data (Json.arr []) }
  | _ => nullParsedRequest

/-- The confusion analysis attached to a session's gathered data (typed as
the persisted data model: topics are strings, confused ids integers). -/
structure ConfusionAnalysis where
  course_id : SqlVal
  unit : Option Str
  topics : List Str
  confused_conversation_ids : List Int
  created_at : Nat
deriving DecidableEq

/-- One element of the session data handed to review synthesis. -/
structure SessionData where
  session_id : Str
  conversations : List Conversation
  confusion_analysis : Option ConfusionAnalysis
deriving DecidableEq

/-- Python `str(x)` of an optional string (Python prints `None`). -/
def pyStrOpt : Option Str → Str
  | some s => s
  | none => "None".data

/-- Python `", ".join(items)`. -/
def joinComma : List Str → Str
  | [] => []
  | [s] => s
  | s :: rest => s ++ (", ".data ++ joinComma rest)

/-- The two context lines appended for one confused conversation. -/
def convContextBlock (conv : Conversation) : Str :=
  "  Confused about: ".data ++ conv.user_message ++ "\n".data ++
    "  Response: ".data ++ pyTake 200 conv.ai_response ++ "...\n".data

/-- The header lines appended for one session (id line plus, when an
analysis is present, its topic and unit lines). -/
def sessionHeaderBlock (session : SessionData) : Str :=
  "Session ".data ++ session.session_id ++ ":\n".data ++
    (match session.confusion_analysis with
     | some ca =>
       "Topics: ".data ++ joinComma ca.topics ++ "\n".data ++
         "Unit: ".data ++ pyStrOpt ca.unit ++ "\n".data
     | none => [])

/-- Is this conversation flagged as confused by the session's analysis? -/
def isConfusedConv (session : SessionData) (conv : Conversation) : Bool :=
  match session.confusion_analysis with
  | some ca => ca.confused_conversation_ids.contains conv.id
  | none => false

/-- The per-session context accumulation loop of `generate_review_content`:
header lines, then the inner loop over conversations guarded by membership
in the confused ids, then a blank line. -/
def sessionContext (session : SessionData) : Str :=
  (session.conversations.foldl
    (fun acc conv => if isConfusedConv session conv then acc ++ convContextBlock conv else acc)
    (sessionHeaderBlock session)) ++ "\n".data

/-- The full prompt context built by `generate_review_content`. -/
def buildReviewContext (confusion_sessions : List SessionData) : Str :=
  confusion_sessions.foldl (fun acc s => acc ++ sessionContext s) []

/-- The fixed fallback payload returned when review generation fails. -/
def fallbackReview : Json :=
  Json.obj
    [("summary".data, Json.str "Unable to generate review content at this time.".data),
     ("questions".data, Json.arr
       [Json.obj
         [("question".data, Json.str "Please review your course materials and try again later.".data),
          ("type".data, Json.str "general".data),
          ("hint".data, Json.str "Check back when the system is available.".data)]])]

/-- `generate_review_content`: build the confusion context, invoke the
completion service on the prompt built from it (`llm` models the template
application and the service call: context text to completion outcome), and
return the parsed response verbatim; on any service or parsing failure
return the fixed fallback payload. -/
def generate_review_content (confusion_sessions : List SessionData)
    (llm : Str → Except Unit String) : Json :=
  let context_text := buildReviewContext confusion_sessions
  match llmJson (llm context_text) with
  | some v => v
  | none => fallbackReview

/-- The fixed neutral fallback grading payload. -/
def fallbackGrading : Json :=
  Json.obj
    [("score_percentage".data, Json.num 75),
     ("score_category".data, Json.str "Good".data),
     ("feedback".data, Json.obj
       [("strengths".data, Json.str "Thank you for providing an answer.".data),
        ("areas_for_improvement".data, Json.str "We encountered an issue evaluating your response.".data),
        ("suggestions".data, Json.str "Please try submitting your answer again.".data),
        ("encouragement".data, Json.str "Keep up the good work! Practice makes perfect.".data)]),
     ("overall_assessment".data, Json.str "Answer submitted successfully".data)]

/-- The four required top-level fields of a grading response. -/
def requiredGradingFields : List Str :=
  ["score_percentage".data, "score_category".data, "feedback".data, "overall_assessment".data]

/-- The four feedback sub-fields of a grading response. -/
def feedbackFields : List Str :=
  ["strengths".data, "areas_for_improvement".data, "suggestions".data, "encouragement".data]

/-- One iteration of the feedback-defaulting loop: leave a present
sub-field alone, default a missing one to the empty string. -/
def fillStep (acc : List (Str × Json)) (f : Str) : List (Str × Json) :=
  if containsKey acc f then acc else insertKV acc f (Json.str [])

/-- Default every missing feedback sub-field to the empty string (the
mutation loop of `grade_student_answer`). -/
def fillFeedback (fkvs : List (Str × Json)) : List (Str × Json) :=
  feedbackFields.foldl fillStep fkvs

/-- Replace the value stored under a present key (in-place dict update). -/
def setKey (kvs : List (Str × Json)) (k : Str) (v : Json) : List (Str × Json) :=
  insertKV kvs k v

/-- `grade_student_answer`: grade an answer via the completion service.
Validates the four top-level fields, requires `feedback` to be an object,
defaults missing feedback sub-fields to the empty string; every failure
returns the fixed neutral fallback. -/
def grade_student_answer (question : Str) (question_type : Str)
    (student_answer : Str) (hint : Option Str) (llm : Except Unit String) : Json :=
  match llmJson llm with
  | some (Json.obj kvs) =>
    if requiredGradingFields.all (fun f => containsKey kvs f) then
      match pyGet kvs "feedback".data with
      | Json.obj fkvs => Json.obj (setKey kvs "feedback".data (Json.obj (fillFeedback fkvs)))
      | _ => fallbackGrading
    else fallbackGrading
  | _ => fallbackGrading

/-! ## Session classifier and periodic analysis scheduler (`classifier.py`) -/

/-- Session timeout in seconds (30 minutes). -/
def SESSION_TIMEOUT : Nat := 30 * 60

/-- The classifier's ephemeral activity map `active_sessions`
(session id to last-activity time, dict insertion order). -/
abbrev Tracker := List (Str × Nat)

/-- `update_session_activity`: record the current time for a session
(dict assignment: replace in place or append). -/
def update_session_activity (tracker : Tracker) (session_id : Str) (now : Nat) : Tracker :=
  match tracker with
  | [] => [(session_id, now)]
  | (s, t) :: rest =>
    if s = session_id then (s, now) :: rest
    else (s, t) :: update_session_activity rest session_id now

/-- `get_expired_sessions`: tracked sessions inactive for at least the
timeout. -/
def get_expired_sessions (tracker : Tracker) (now : Nat) : List Str :=
  (tracker.filter (fun p => SESSION_TIMEOUT ≤ now - p.2)).map (fun p => p.1)

/-- `mark_session_analyzed`: drop a session from the activity map. -/
def mark_session_analyzed (tracker : Tracker) (session_id : Str) : Tracker :=
  tracker.filter (fun p => p.1 ≠ session_id)

/-- `analyze_single_session`: classify one session.  Returns the success
flag and the updated database.  `llm` is the completion outcome for this
session's single service call.  The boolean is `false` (with the database
unchanged) when the session has no conversations, when the course catalog
is empty, or when the insert raises; otherwise a record is written and the
result is `true` — even when the analysis found no course. -/
def analyze_single_session (db : DB) (session_id : Str)
    (llm : Except Unit String) : Bool × DB :=
  let conversations := get_session_conversations db session_id
  if conversations.isEmpty then (false, db)
  else
    let courses := get_courses db
    if courses.isEmpty then (false, db)
    else
      let analysis_result := analyze_session_confusion conversations courses llm
      if pyTruthy analysis_result.course_id then
        match save_confusion_analysis db session_id analysis_result.course_id
            analysis_result.unit analysis_result.topics
            analysis_result.confused_conversation_ids with
        | some db2 => (true, db2)
        | none => (false, db)
      else
        match save_confusion_analysis db session_id Json.null Json.null
            (Json.arr []) (Json.arr []) with
        | some db2 => (true, db2)
        | none => (false, db)

/-- Return values the specification discusses for the scheduler sweep.  A
Python function body without a `return` statement returns `None`, rendered
here as `SchedRet.none`; `SchedRet.counts` renders the `(analyzed_count,
failed_count)` pair the specification describes. -/
inductive SchedRet where
  | none : SchedRet
  | counts (analyzed failed : Nat) : SchedRet
deriving DecidableEq

/-- The classifier's process state: activity tracker plus the store. -/
structure SweepState where
  tracker : Tracker
  db : DB
deriving DecidableEq

/-- The body of the sweep loop of `analyze_expired_sessions`: for each
expired session, analyze it if the repository has no record yet, then clear
it from the tracker regardless of the outcome. -/
def sweepLoop (oracle : Str → Except Unit String) :
    List Str → SweepState → SweepState
  | [], st => st
  | session_id :: rest, st =>
    let st2 :=
      if check_session_needs_analysis st.db session_id then
        { st with db := (analyze_single_session st.db session_id (oracle session_id)).2 }
      else st
    sweepLoop oracle rest { st2 with tracker := mark_session_analyzed st2.tracker session_id }

/-- `analyze_expired_sessions`: sweep every expired session.  The Python
function returns `None`. -/
def analyze_expired_sessions (st : SweepState) (now : Nat)
    (oracle : Str → Except Unit String) : SchedRet × SweepState :=
  let expired_sessions := get_expired_sessions st.tracker now
  (SchedRet.none, sweepLoop oracle expired_sessions st)

/-- `run_periodic_analysis`: the scheduler's `run()` entry point — prints
around `analyze_expired_sessions` and, like it, returns `None`. -/
def run_periodic_analysis (st : SweepState) (now : Nat)
    (oracle : Str → Except Unit String) : SchedRet × SweepState :=
  analyze_expired_sessions st now oracle

/-- One sweep configuration: the tracker contents at sweep time, the sweep
time, and the completion outcomes of the sweep's classification calls. -/
structure SweepCfg where
  tracker : Tracker
  now : Nat
  oracle : Str → Except Unit String

/-- Run a sequence of scheduler sweeps against a database. -/
def runSweeps : List SweepCfg → DB → DB
  | [], db => db
  | cfg :: rest, db =>
    runSweeps rest (analyze_expired_sessions { tracker := cfg.tracker, db := db } cfg.now cfg.oracle).2.db

/-! ## Review generation flow (`review_generator.py`) -/

/-- Read a stored JSON text back as a list of strings (shape of every
topics column written by the classifier). -/
def asStrList : Json → Option (List Str)
  | Json.arr elems =>
    elems.foldr
      (fun e acc => match e, acc with
        | Json.str s, some l => some (s :: l)
        | _, _ => none)
      (some [])
  | _ => none

/-- Read a stored JSON text back as a list of integers (shape of every
confused-ids column written by the classifier). -/
def asIntList : Json → Option (List Int)
  | Json.arr elems =>
    elems.foldr
      (fun e acc => match e, acc with
        | Json.num n, some l => some (n :: l)
        | _, _ => none)
      (some [])
  | _ => none

/-- `get_confusion_points_for_session`: the first confusion row of a
session decoded into the persisted data model; the outer `none` models the
decode raising on a row whose stored JSON text is not of the shape the
classifier writes. -/
def get_confusion_points_for_session (db : DB) (session_id : Str) :
    Option (Option ConfusionAnalysis) :=
  match db.confusion_points.find? (fun r => r.session_id == session_id) with
  | none => some none
  | some row =>
    match jsonLoads row.topics, jsonLoads row.confused_conversation_ids with
    | some tj, some cj =>
      match asStrList tj, asIntList cj with
      | some ts, some cs =>
        some (some
          { course_id := row.course_id,
            unit := (match row.unit with
                     | SqlVal.null => none
                     | SqlVal.text s => some s
                     | SqlVal.int n => some (intChars n)),
            topics := ts, confused_conversation_ids := cs,
            created_at := row.created_at })
      | _, _ => none
    | _, _ => none

/-- `get_all_session_data`: join each session's conversations with its
confusion analysis; `none` models a decode error propagating. -/
def get_all_session_data (db : DB) (session_ids : List Str) :
    Option (List SessionData) :=
  session_ids.foldr
    (fun sid acc =>
      match get_confusion_points_for_session db sid, acc with
      | some ca, some l =>
        some ({ session_id := sid,
                conversations := get_session_conversations db sid,
                confusion_analysis := ca } :: l)
      | _, _ => none)
    (some [])

/-- Metadata returned with a successful review. -/
structure ReviewMeta where
  course_id : Json
  unit : Json
  topics : Json
  session_count : Nat

/-- The discriminated result of `generate_review_from_request`
(`success: False` with a message, or `success: True` with content). -/
inductive ReviewResult where
  | failure (message : Str) : ReviewResult
  | success (content : Json) (metadata : ReviewMeta) : ReviewResult

/-- Dynamic passage of the parsed request fields into the typed selection
interface.  `none` models the dynamic error path (the function's `except`
branch).  All settled claims about this function concern the rejection path
taken before these arguments are ever built. -/
def queryArgsOfParsed (parsed : ParsedRequest) :
    Option (Option Int × Option Str × Option (List Str)) :=
  match parsed.course_id with
  | Json.num n =>
    match parsed.unit with
    | Json.null => (asStrListOpt parsed.topics).map (fun ts => (some n, none, ts))
    | Json.str u => (asStrListOpt parsed.topics).map (fun ts => (some n, some u, ts))
    | _ => none
  | _ => none
where
  asStrListOpt : Json → Option (Option (List Str))
    | Json.null => some none
    | j => (asStrList j).map some

/-- `generate_review_from_request`: parse the request, reject it with a
user-facing message when no course could be understood, otherwise select
matching confusion sessions, gather their data and synthesize review
content.  `llmParse` is the completion outcome of the parsing call and
`llmGen` that of the synthesis call (as a function of the built context). -/
def generate_review_from_request (db : DB) (natural_language_request : Str)
    (llmParse : Except Unit String) (llmGen : Str → Except Unit String) : ReviewResult :=
  let courses := get_courses db
  let parsed_request := parse_review_request natural_language_request courses llmParse
  if ¬ pyTruthy parsed_request.course_id then
    ReviewResult.failure
      "Could not understand which course you want to review. Please specify a course name or topic.".data
  else
    match queryArgsOfParsed parsed_request with
    | none => ReviewResult.failure "Error generating review".data
    | some (cid, unitArg, topicsArg) =>
      let confusion_session_ids := get_confusion_sessions db cid unitArg topicsArg
      if confusion_session_ids.isEmpty then
        ReviewResult.failure
          "No confusion points found for the requested topic. Try having some conversations first!".data
      else
        match get_all_session_data db confusion_session_ids with
        | none => ReviewResult.failure "Error generating review".data
        | some session_data =>
          ReviewResult.success (generate_review_content session_data llmGen)
            { course_id := parsed_request.course_id,
              unit := parsed_request.unit,
              topics := parsed_request.topics,
              session_count := confusion_session_ids.length }

/-! ## Shared lemmas about the classifier and the sweep -/

/-- The row written by the null-course branch of `analyze_single_session`. -/
def nullConfusionRow (session_id : Str) (clock : Nat) : ConfusionRow :=
  { session_id := session_id, course_id := SqlVal.null, unit := SqlVal.null,
    topics := "[]".data, confused_conversation_ids := "[]".data, created_at := clock }

theorem save_confusion_analysis_shape {db : DB} {sid : Str}
    {cid u tp cf : Json} {db2 : DB}
    (h : save_confusion_analysis db sid cid u tp cf = some db2) :
    ∃ c v, db2 = { db with
      confusion_points := db.confusion_points ++
        [{ session_id := sid, course_id := c, unit := v, topics := dumpJson tp,
           confused_conversation_ids := dumpJson cf, created_at := db.clock }],
      clock := db.clock + 1 } := by
  unfold save_confusion_analysis at h
  rcases hb1 : bindIntAffinity cid with _ | c <;> rw [hb1] at h
  · exact absurd h (by simp)
  · rcases hb2 : bindTextAffinity u with _ | v <;> rw [hb2] at h
    · exact absurd h (by simp)
    · simp only [Option.some_inj] at h
      exact ⟨c, v, h.symm⟩

theorem save_null_eq (db : DB) (sid : Str) :
    save_confusion_analysis db sid Json.null Json.null (Json.arr []) (Json.arr []) =
      some { db with
        confusion_points := db.confusion_points ++ [nullConfusionRow sid db.clock],
        clock := db.clock + 1 } := rfl

theorem analyze_single_session_cases (db : DB) (sid : Str) (llm : Except Unit String) :
    (analyze_single_session db sid llm).2 = db ∨
      ∃ row : ConfusionRow, row.session_id = sid ∧
        (analyze_single_session db sid llm).2 =
          { db with confusion_points := db.confusion_points ++ [row],
                    clock := db.clock + 1 } := by
  unfold analyze_single_session
  rcases h1 : (get_session_conversations db sid).isEmpty
  · rcases h2 : (get_courses db).isEmpty
    · rcases h3 : pyTruthy (analyze_session_confusion (get_session_conversations db sid)
          (get_courses db) llm).course_id
      · rcases h4 : save_confusion_analysis db sid Json.null Json.null
            (Json.arr []) (Json.arr []) with _ | db2
        · exact Or.inl (by simp [h1, h2, h3, h4])
        · obtain ⟨c, v, rfl⟩ := save_confusion_analysis_shape h4
          exact Or.inr ⟨{ session_id := sid, course_id := c, unit := v,
                          topics := dumpJson (Json.arr []),
                          confused_conversation_ids := dumpJson (Json.arr []),
                          created_at := db.clock }, rfl, by simp [h1, h2, h3, h4]⟩
      · rcases h4 : save_confusion_analysis db sid
            (analyze_session_confusion (get_session_conversations db sid)
              (get_courses db) llm).course_id
            (analyze_session_confusion (get_session_conversations db sid)
              (get_courses db) llm).unit
            (analyze_session_confusion (get_session_conversations db sid)
              (get_courses db) llm).topics
            (analyze_session_confusion (get_session_conversations db sid)
              (get_courses db) llm).confused_conversation_ids with _ | db2
        · exact Or.inl (by simp [h1, h2, h3, h4])
        · obtain ⟨c, v, rfl⟩ := save_confusion_analysis_shape h4
          exact Or.inr ⟨{ session_id := sid, course_id := c, unit := v,
                          topics := dumpJson (analyze_session_confusion
                            (get_session_conversations db sid) (get_courses db) llm).topics,
                          confused_conversation_ids := dumpJson (analyze_session_confusion
                            (get_session_conversations db sid) (get_courses db) llm).confused_conversation_ids,
                          created_at := db.clock }, rfl, by simp [h1, h2, h3, h4]⟩
    · exact Or.inl (by simp [h1, h2])
  · exact Or.inl (by simp [h1])

theorem recordsFor_append (db : DB) (rows : List ConfusionRow) (s : Str) :
    recordsFor { db with confusion_points := db.confusion_points ++ rows, clock := db.clock + 1 } s =
      recordsFor db s ++ rows.filter (fun r => r.session_id == s) := by
  simp [recordsFor, List.filter_append]

theorem check_needs_iff (db : DB) (s : Str) :
    check_session_needs_analysis db s = true ↔ recordsFor db s = [] := by
  simp [check_session_needs_analysis, recordsFor, List.filter_eq_nil_iff]

theorem analyze_single_session_conversations (db : DB) (sid : Str) (llm : Except Unit String) :
    (analyze_single_session db sid llm).2.conversations = db.conversations := by
  rcases analyze_single_session_cases db sid llm with h | ⟨row, _, h⟩ <;> rw [h]

theorem analyze_single_session_courses (db : DB) (sid : Str) (llm : Except Unit String) :
    (analyze_single_session db sid llm).2.courses = db.courses := by
  rcases analyze_single_session_cases db sid llm with h | ⟨row, _, h⟩ <;> rw [h]


theorem analyze_single_session_recordsFor_ne (db : DB) (sid : Str)
    (llm : Except Unit String) (s : Str) (hne : s ≠ sid) :
    recordsFor (analyze_single_session db sid llm).2 s = recordsFor db s := by
  rcases analyze_single_session_cases db sid llm with h | ⟨row, hrow, h⟩ <;> rw [h]
  rw [recordsFor_append]
  have hf : (row.session_id == s) = false := by
    rw [hrow]
    exact beq_eq_false_iff_ne.mpr (Ne.symm hne)
  simp [List.filter_cons, hf]

theorem analyze_single_session_count_le (db : DB) (sid : Str) (llm : Except Unit String) :
    countRecords (analyze_single_session db sid llm).2 sid ≤ countRecords db sid + 1 := by
  rcases analyze_single_session_cases db sid llm with h | ⟨row, hrow, h⟩ <;>
    simp only [countRecords, h]
  · exact Nat.le_succ _
  · rw [recordsFor_append, List.length_append]
    have hb : (List.filter (fun r => r.session_id == sid) [row]).length ≤ 1 := by
      simp only [List.filter_cons, List.filter_nil]
      rcases row.session_id == sid <;> simp
    omega

/-- The null-analysis branch of `analyze_single_session`: with conversations
and a catalog present and a non-truthy classified course id, the classifier
writes the null row and reports success. -/
theorem analyze_single_session_null_branch (db : DB) (sid : Str)
    (llm : Except Unit String)
    (h1 : get_session_conversations db sid ≠ [])
    (h2 : db.courses ≠ [])
    (h3 : pyTruthy (analyze_session_confusion (get_session_conversations db sid)
      db.courses llm).course_id = false) :
    analyze_single_session db sid llm =
      (true, { db with
        confusion_points := db.confusion_points ++ [nullConfusionRow sid db.clock],
        clock := db.clock + 1 }) := by
  unfold analyze_single_session
  have e1 : (get_session_conversations db sid).isEmpty = false := by
    simp [List.isEmpty_iff, h1]
  have e2 : (get_courses db).isEmpty = false := by
    simp [get_courses, List.isEmpty_iff, h2]
  have h3q : pyTruthy (analyze_session_confusion (get_session_conversations db sid)
      (get_courses db) llm).course_id = false := h3
  simp only [e1, e2, h3q, Bool.false_eq_true, if_false, save_null_eq]

/-- The failure branches of `analyze_single_session`: no conversations or an
empty catalog yield `false` with the database unchanged. -/
theorem analyze_single_session_false_branch (db : DB) (sid : Str)
    (llm : Except Unit String)
    (h : get_session_conversations db sid = [] ∨ db.courses = []) :
    analyze_single_session db sid llm = (false, db) := by
  unfold analyze_single_session
  rcases e1 : (get_session_conversations db sid).isEmpty
  · have hcs : db.courses = [] := by
      rcases h with h | h
      · rw [h] at e1
        exact absurd e1 (by simp)
      · exact h
    simp [e1, get_courses, hcs]
  · simp [e1]

/-- One unfolding of the sweep loop in a convenient normal form. -/
theorem sweepLoop_cons_eq (oracle : Str → Except Unit String) (sid : Str)
    (rest : List Str) (st : SweepState) :
    sweepLoop oracle (sid :: rest) st =
      sweepLoop oracle rest
        { tracker := mark_session_analyzed st.tracker sid,
          db := if check_session_needs_analysis st.db sid
                then (analyze_single_session st.db sid (oracle sid)).2
                else st.db } := by
  simp only [sweepLoop]
  split <;> rfl

theorem sweepLoop_tracker_subset (oracle : Str → Except Unit String) :
    ∀ (l : List Str) (st : SweepState) (p : Str × Nat),
      p ∈ (sweepLoop oracle l st).tracker → p ∈ st.tracker := by
  intro l
  induction l with
  | nil => intro st p h; exact h
  | cons sid rest ih =>
    intro st p h
    rw [sweepLoop_cons_eq] at h
    have h2 := ih _ _ h
    simp only [mark_session_analyzed, List.mem_filter] at h2
    exact h2.1

theorem sweepLoop_cleared (oracle : Str → Except Unit String) :
    ∀ (l : List Str) (st : SweepState) (s : Str), s ∈ l →
      ∀ p ∈ (sweepLoop oracle l st).tracker, p.1 ≠ s := by
  intro l
  induction l with
  | nil => intro st s h; exact absurd h (List.not_mem_nil s)
  | cons sid rest ih =>
    intro st s hs p hp
    rcases List.mem_cons.mp hs with rfl | hs2
    · rw [sweepLoop_cons_eq] at hp
      have h2 := sweepLoop_tracker_subset oracle rest _ p hp
      simp only [mark_session_analyzed, List.mem_filter] at h2
      simpa using h2.2
    · rw [sweepLoop_cons_eq] at hp
      exact ih _ s hs2 p hp

theorem sweepLoop_conversations (oracle : Str → Except Unit String) :
    ∀ (l : List Str) (st : SweepState),
      (sweepLoop oracle l st).db.conversations = st.db.conversations := by
  intro l
  induction l with
  | nil => intro st; rfl
  | cons sid rest ih =>
    intro st
    rw [sweepLoop_cons_eq, ih]
    rcases check_session_needs_analysis st.db sid <;>
      simp [analyze_single_session_conversations]

theorem sweepLoop_courses (oracle : Str → Except Unit String) :
    ∀ (l : List Str) (st : SweepState),
      (sweepLoop oracle l st).db.courses = st.db.courses := by
  intro l
  induction l with
  | nil => intro st; rfl
  | cons sid rest ih =>
    intro st
    rw [sweepLoop_cons_eq, ih]
    rcases check_session_needs_analysis st.db sid <;>
      simp [analyze_single_session_courses]

/-- A session that already has a confusion record keeps exactly its records
through a whole sweep: the guard skips it, and every other session's
classification appends only rows of that other session. -/
theorem sweepLoop_preserves_analyzed (oracle : Str → Except Unit String) :
    ∀ (l : List Str) (st : SweepState) (s : Str), recordsFor st.db s ≠ [] →
      recordsFor (sweepLoop oracle l st).db s = recordsFor st.db s := by
  intro l
  induction l with
  | nil => intro st s h; rfl
  | cons sid rest ih =>
    intro st s h
    rw [sweepLoop_cons_eq]
    by_cases hss : s = sid
    · subst hss
      have hc : check_session_needs_analysis st.db s = false := by
        rcases hcc : check_session_needs_analysis st.db s
        · rfl
        · exact absurd ((check_needs_iff st.db s).mp hcc) h
      simp only [hc, Bool.false_eq_true, if_false]
      exact ih _ s h
    · rcases hc : check_session_needs_analysis st.db sid <;>
        simp only [hc, Bool.false_eq_true, if_false, if_true]
      · exact ih _ s h
      · have hrec : recordsFor (analyze_single_session st.db sid (oracle sid)).2 s =
            recordsFor st.db s :=
          analyze_single_session_recordsFor_ne st.db sid (oracle sid) s hss
        rw [ih _ s (by rw [hrec]; exact h), hrec]

/-- A whole sweep preserves the at-most-one-record invariant. -/
theorem sweepLoop_le_one (oracle : Str → Except Unit String) :
    ∀ (l : List Str) (st : SweepState), (∀ s, countRecords st.db s ≤ 1) →
      ∀ s, countRecords (sweepLoop oracle l st).db s ≤ 1 := by
  intro l
  induction l with
  | nil => intro st h s; exact h s
  | cons sid rest ih =>
    intro st h s
    rw [sweepLoop_cons_eq]
    rcases hc : check_session_needs_analysis st.db sid <;>
      simp only [hc, Bool.false_eq_true, if_false, if_true]
    · exact ih { tracker := mark_session_analyzed st.tracker sid, db := st.db } h s
    · apply ih
      intro s2
      show countRecords (analyze_single_session st.db sid (oracle sid)).2 s2 ≤ 1
      by_cases hss : s2 = sid
      · subst hss
        have h0 : countRecords st.db s2 = 0 := by
          rw [countRecords, (check_needs_iff st.db s2).mp hc, List.length_nil]
        have := analyze_single_session_count_le st.db s2 (oracle s2)
        omega
      · rw [countRecords, analyze_single_session_recordsFor_ne st.db sid (oracle sid) s2 hss]
        exact h s2

theorem get_session_conversations_congr {db1 db2 : DB}
    (h : db1.conversations = db2.conversations) (s : Str) :
    get_session_conversations db1 s = get_session_conversations db2 s := by
  unfold get_session_conversations
  rw [h]

/-- `analyze_session_confusion` depends only on the completion outcome: the
conversation list and catalog shape only the prompt text. -/
theorem analyze_session_confusion_const (a1 a2 : List Conversation)
    (b1 b2 : List Course) (llm : Except Unit String) :
    analyze_session_confusion a1 b1 llm = analyze_session_confusion a2 b2 llm := rfl

/-- An eligible expired session (no record, conversations present, catalog
present, classification yielding a non-truthy course) ends a sweep with
exactly one record, regardless of what happens to every other session. -/
theorem sweepLoop_processes (oracle : Str → Except Unit String) :
    ∀ (l : List Str) (st : SweepState) (s : Str), s ∈ l →
      countRecords st.db s = 0 →
      get_session_conversations st.db s ≠ [] →
      st.db.courses ≠ [] →
      pyTruthy (analyze_session_confusion (get_session_conversations st.db s)
        st.db.courses (oracle s)).course_id = false →
      countRecords (sweepLoop oracle l st).db s = 1 := by
  intro l
  induction l with
  | nil => intro st s hs; exact absurd hs (List.not_mem_nil s)
  | cons sid rest ih =>
    intro st s hs h0 hconv hcrs htr
    rw [sweepLoop_cons_eq]
    by_cases hss : s = sid
    · subst hss
      have hrecnil : recordsFor st.db s = [] := by
        rw [countRecords] at h0
        exact List.length_eq_zero.mp h0
      have hc : check_session_needs_analysis st.db s = true :=
        (check_needs_iff st.db s).mpr hrecnil
      simp only [hc, if_true]
      have heq := analyze_single_session_null_branch st.db s (oracle s) hconv hcrs htr
      have hrec1 : recordsFor (analyze_single_session st.db s (oracle s)).2 s =
          [nullConfusionRow s st.db.clock] := by
        rw [heq, recordsFor_append, hrecnil]
        simp [nullConfusionRow]
      have hne : recordsFor (analyze_single_session st.db s (oracle s)).2 s ≠ [] := by
        rw [hrec1]
        exact List.cons_ne_nil _ _
      have := sweepLoop_preserves_analyzed oracle rest
        { tracker := mark_session_analyzed st.tracker s,
          db := (analyze_single_session st.db s (oracle s)).2 } s hne
      rw [countRecords, this, hrec1, List.length_singleton]
    · have hdbcases : ∀ db2 : DB, db2 = (analyze_single_session st.db sid (oracle sid)).2 ∨ db2 = st.db →
        countRecords (sweepLoop oracle rest { tracker := mark_session_analyzed st.tracker sid, db := db2 }).db s = 1 := by
        intro db2 hdb2
        have hcount : countRecords db2 s = 0 := by
          rcases hdb2 with rfl | rfl
          · rw [countRecords, analyze_single_session_recordsFor_ne st.db sid (oracle sid) s hss]
            exact h0
          · exact h0
        have hconv2 : get_session_conversations db2 s ≠ [] := by
          rcases hdb2 with rfl | rfl
          · rw [get_session_conversations_congr
              (analyze_single_session_conversations st.db sid (oracle sid)) s]
            exact hconv
          · exact hconv
        have hcrs2 : db2.courses ≠ [] := by
          rcases hdb2 with rfl | rfl
          · rw [analyze_single_session_courses]
            exact hcrs
          · exact hcrs
        have htr2 : pyTruthy (analyze_session_confusion (get_session_conversations db2 s)
            db2.courses (oracle s)).course_id = false := by
          rw [analyze_session_confusion_const (get_session_conversations db2 s) (get_session_conversations st.db s) db2.courses st.db.courses]
          exact htr
        exact ih _ s (List.mem_of_ne_of_mem hss hs) hcount hconv2 hcrs2 htr2
      rcases hc : check_session_needs_analysis st.db sid <;>
        simp only [hc, Bool.false_eq_true, if_false, if_true]
      · exact hdbcases st.db (Or.inr rfl)
      · exact hdbcases _ (Or.inl rfl)

/-- Analyzed sessions stay untouched across any sequence of sweeps. -/
theorem runSweeps_preserves_analyzed :
    ∀ (cfgs : List SweepCfg) (db : DB) (s : Str), recordsFor db s ≠ [] →
      recordsFor (runSweeps cfgs db) s = recordsFor db s := by
  intro cfgs
  induction cfgs with
  | nil => intro db s h; rfl
  | cons cfg rest ih =>
    intro db s h
    rw [runSweeps]
    have h1 := sweepLoop_preserves_analyzed cfg.oracle
      (get_expired_sessions cfg.tracker cfg.now) { tracker := cfg.tracker, db := db } s h
    rw [ih _ s (by rw [show (analyze_expired_sessions { tracker := cfg.tracker, db := db } cfg.now cfg.oracle).2.db = (sweepLoop cfg.oracle (get_expired_sessions cfg.tracker cfg.now) { tracker := cfg.tracker, db := db }).db from rfl, h1]; exact h)]
    exact h1

/-! ## Concrete fixtures shared by the claim theorems -/

/-- The sample conversation of the specification's scenario. -/
def exConv1 : Conversation :=
  { id := 1, session_id := "s1".data, user_message := "What is a pointer?".data,
    ai_response := "A pointer is...".data, created_at := 10 }

/-- The sample course of the specification's scenario. -/
def exCourse7 : Course :=
  { id := 7, name := "CS101".data,
    units := [{ name := "Unit 1".data, topics := ["pointers".data, "loops".data] }] }

/-- A store holding one session with one conversation and one course. -/
def exDB : DB :=
  { conversations := [exConv1], courses := [exCourse7], confusion_points := [], clock := 5 }

/-! ## Claim theorems -/

/-- C1 counterexample: for the concrete store `exDB` (session `s1` has one
conversation, one course exists), a completion-service failure
(`Except.error ()`) makes `analyze_single_session` return `true` and write
a ConfusionRecord (the null row) — the claim asserts it returns `false`
and writes nothing, so the failure path is not distinguishable from a
successful classification with no course match. -/
theorem c1_counterexample_error_writes_record :
    (analyze_single_session exDB "s1".data (Except.error ())).1 = true ∧
    (analyze_single_session exDB "s1".data (Except.error ())).2.confusion_points =
      [nullConfusionRow "s1".data 5] := by
  constructor <;> rfl

/-- C1 (amended): when the classification attempt hits a parsing or network
error, `analyze_session_confusion` swallows it and returns the null
analysis; `analyze_single_session` then persists one ConfusionRecord with
null course id and returns `true` — exactly as for a successful
classification with no course match, so the session is not retried.
`classify` returns `false` with no record written only when the session has
no conversations or the course catalog is empty. -/
theorem c1_amended_fail_forward (db : DB) (sid : Str) (llm : Except Unit String)
    (hfail : analyze_session_confusion (get_session_conversations db sid)
      db.courses llm = nullAnalysis) :
    (get_session_conversations db sid ≠ [] → db.courses ≠ [] →
      analyze_single_session db sid llm =
        (true, { db with
          confusion_points := db.confusion_points ++ [nullConfusionRow sid db.clock],
          clock := db.clock + 1 })) ∧
    (get_session_conversations db sid = [] ∨ db.courses = [] →
      analyze_single_session db sid llm = (false, db)) := by
  constructor
  · intro h1 h2
    apply analyze_single_session_null_branch db sid llm h1 h2
    rw [hfail]
    rfl
  · exact analyze_single_session_false_branch db sid llm

/-- C1 witness: the amended theorem applied to the concrete store `exDB`
and a failing completion call. -/
theorem c1_amended_fail_forward_witness :
    analyze_single_session exDB "s1".data (Except.error ()) =
      (true, { exDB with
        confusion_points := exDB.confusion_points ++ [nullConfusionRow "s1".data exDB.clock],
        clock := exDB.clock + 1 }) :=
  (c1_amended_fail_forward exDB "s1".data (Except.error ()) rfl).1
    (by decide) (by decide)

/-- C2: the central idempotence invariant.  First, if every session has at
most one ConfusionRecord, then after any sequence of scheduler sweeps every
session still has at most one — a second classification of an analyzed
session is never performed, so no session ever accumulates two records.
Second, a session the repository already reports as analyzed keeps exactly
its records through a sweep (the second call is a no-op on the store). -/
theorem c2_at_most_one_record :
    (∀ (db : DB) (cfgs : List SweepCfg), (∀ s, countRecords db s ≤ 1) →
      ∀ s, countRecords (runSweeps cfgs db) s ≤ 1) ∧
    (∀ (st : SweepState) (now : Nat) (oracle : Str → Except Unit String) (s : Str),
      recordsFor st.db s ≠ [] →
      recordsFor (analyze_expired_sessions st now oracle).2.db s = recordsFor st.db s) := by
  constructor
  · intro db cfgs
    induction cfgs generalizing db with
    | nil => intro h s; exact h s
    | cons cfg rest ih =>
      intro h s
      rw [runSweeps]
      apply ih
      intro s2
      exact sweepLoop_le_one cfg.oracle (get_expired_sessions cfg.tracker cfg.now)
        { tracker := cfg.tracker, db := db } h s2
  · intro st now oracle s h
    exact sweepLoop_preserves_analyzed oracle (get_expired_sessions st.tracker now) st s h

/-- The database of the C2/C4 examples: one analyzed session. -/
def exDBone : DB :=
  { conversations := [exConv1], courses := [exCourse7],
    confusion_points := [nullConfusionRow "s1".data 0], clock := 1 }

/-- A sweep configuration in which session `s1` is expired and every
completion call fails. -/
def exCfg : SweepCfg :=
  { tracker := [("s1".data, 0)], now := 2000, oracle := fun _ => Except.error () }

/-- C2 witness: both parts at a concrete store with one analyzed session
and one sweep that would retry it. -/
theorem c2_at_most_one_record_witness :
    countRecords (runSweeps [exCfg] exDBone) "s1".data ≤ 1 ∧
    recordsFor (analyze_expired_sessions
      { tracker := [("s1".data, 0)], db := exDBone } 2000
      (fun _ => Except.error ())).2.db "s1".data = recordsFor exDBone "s1".data := by
  constructor
  · apply c2_at_most_one_record.1 exDBone
    intro s
    exact Nat.le_trans (List.length_filter_le _ _) (by decide)
  · apply c2_at_most_one_record.2
    decide

/-- C3: with at least one conversation and a non-empty catalog, a
successfully parsed analysis whose course id is null still makes
`analyze_single_session` persist exactly one ConfusionRecord — the null
row (null course, null unit, empty topics, empty confused ids) — and
return `true`; afterwards no sequence of scheduler sweeps ever touches the
session's records again. -/
theorem c3_null_course_persisted (db : DB) (sid : Str) (llm : Except Unit String)
    (cfgs : List SweepCfg)
    (h1 : get_session_conversations db sid ≠ [])
    (h2 : db.courses ≠ [])
    (hnull : (analyze_session_confusion (get_session_conversations db sid)
      db.courses llm).course_id = Json.null) :
    (analyze_single_session db sid llm).1 = true ∧
    (analyze_single_session db sid llm).2.confusion_points =
      db.confusion_points ++ [nullConfusionRow sid db.clock] ∧
    countRecords (analyze_single_session db sid llm).2 sid = countRecords db sid + 1 ∧
    recordsFor (runSweeps cfgs (analyze_single_session db sid llm).2) sid =
      recordsFor (analyze_single_session db sid llm).2 sid := by
  have h3 : pyTruthy (analyze_session_confusion (get_session_conversations db sid)
      db.courses llm).course_id = false := by
    rw [hnull]
    rfl
  have heq := analyze_single_session_null_branch db sid llm h1 h2 h3
  have hfilter : List.filter (fun r => r.session_id == sid) [nullConfusionRow sid db.clock] =
      [nullConfusionRow sid db.clock] := by
    simp [nullConfusionRow]
  refine ⟨by rw [heq], by rw [heq], ?_, ?_⟩
  · rw [heq]
    show (recordsFor _ sid).length = (recordsFor db sid).length + 1
    rw [recordsFor_append, hfilter, List.length_append, List.length_singleton]
  · apply runSweeps_preserves_analyzed
    rw [heq]
    show recordsFor _ sid ≠ []
    rw [recordsFor_append, hfilter]
    simp

/-- C3 witness: the theorem applied to `exDB`, a completion response that
parses to a null course id, and one subsequent sweep that retries the
session. -/
theorem c3_null_course_persisted_witness :
    ((analyze_single_session exDB "s1".data
        (Except.ok "\x7b\"course_id\": null, \"unit\": null, \"topics\": [], \"confused_conversation_ids\": []\x7d")).1 = true ∧
      (analyze_single_session exDB "s1".data
        (Except.ok "\x7b\"course_id\": null, \"unit\": null, \"topics\": [], \"confused_conversation_ids\": []\x7d")).2.confusion_points =
        exDB.confusion_points ++ [nullConfusionRow "s1".data exDB.clock] ∧
      countRecords (analyze_single_session exDB "s1".data
        (Except.ok "\x7b\"course_id\": null, \"unit\": null, \"topics\": [], \"confused_conversation_ids\": []\x7d")).2 "s1".data =
        countRecords exDB "s1".data + 1 ∧
      recordsFor (runSweeps [exCfg]
        (analyze_single_session exDB "s1".data
          (Except.ok "\x7b\"course_id\": null, \"unit\": null, \"topics\": [], \"confused_conversation_ids\": []\x7d")).2) "s1".data =
        recordsFor (analyze_single_session exDB "s1".data
          (Except.ok "\x7b\"course_id\": null, \"unit\": null, \"topics\": [], \"confused_conversation_ids\": []\x7d")).2 "s1".data) :=
  c3_null_course_persisted exDB "s1".data
    (Except.ok "\x7b\"course_id\": null, \"unit\": null, \"topics\": [], \"confused_conversation_ids\": []\x7d")
    [exCfg] (by decide) (by decide) (by rfl)

/-- C9 counterexample: the scheduler entry point returns `None` (no
`(analyzed_count, failed_count)` pair) even in the zero-eligible-sessions
case the claim singles out: with an empty tracker there are no expired
sessions, and the returned value is `None`, not `(0, 0)`. -/
theorem c9_counterexample_run_returns_none :
    get_expired_sessions ([] : Tracker) 0 = [] ∧
    (run_periodic_analysis { tracker := [], db := exDB } 0 (fun _ => Except.error ())).1 =
      SchedRet.none ∧
    SchedRet.none ≠ SchedRet.counts 0 0 := by
  refine ⟨rfl, rfl, ?_⟩
  intro h
  exact SchedRet.noConfusion h

/-- C9 (amended): `run_periodic_analysis` always returns `None` rather than
a count pair; with zero eligible sessions it returns without error and
leaves the state unchanged; every expired session is cleared from the
tracker regardless of its classification outcome; and an eligible session
is still classified (ending with exactly one record) no matter how every
other session in the sweep fares — one bad session does not abort the
sweep. -/
theorem c9_amended_sweep_behavior :
    (∀ (st : SweepState) (now : Nat) (oracle : Str → Except Unit String),
      (run_periodic_analysis st now oracle).1 = SchedRet.none) ∧
    (∀ (st : SweepState) (now : Nat) (oracle : Str → Except Unit String),
      get_expired_sessions st.tracker now = [] →
      run_periodic_analysis st now oracle = (SchedRet.none, st)) ∧
    (∀ (st : SweepState) (now : Nat) (oracle : Str → Except Unit String) (s : Str),
      s ∈ get_expired_sessions st.tracker now →
      ∀ p ∈ (run_periodic_analysis st now oracle).2.tracker, p.1 ≠ s) ∧
    (∀ (st : SweepState) (now : Nat) (oracle : Str → Except Unit String) (s : Str),
      s ∈ get_expired_sessions st.tracker now →
      countRecords st.db s = 0 →
      get_session_conversations st.db s ≠ [] →
      st.db.courses ≠ [] →
      pyTruthy (analyze_session_confusion (get_session_conversations st.db s)
        st.db.courses (oracle s)).course_id = false →
      countRecords (run_periodic_analysis st now oracle).2.db s = 1) := by
  refine ⟨fun st now oracle => rfl, ?_, ?_, ?_⟩
  · intro st now oracle hexp
    unfold run_periodic_analysis analyze_expired_sessions
    rw [hexp]
    rfl
  · intro st now oracle s hs p hp
    exact sweepLoop_cleared oracle (get_expired_sessions st.tracker now) st s hs p hp
  · intro st now oracle s hs h0 hconv hcrs htr
    exact sweepLoop_processes oracle (get_expired_sessions st.tracker now) st s hs h0 hconv hcrs htr

/-- C9 witness: the amended theorem at concrete states — an empty tracker
sweep is the identity, and in a sweep over the expired session `s1` with a
failing completion service the session is cleared and ends with one
record. -/
theorem c9_amended_sweep_behavior_witness :
    run_periodic_analysis { tracker := [], db := exDB } 0 (fun _ => Except.error ()) =
      (SchedRet.none, { tracker := [], db := exDB }) ∧
    (∀ p ∈ (run_periodic_analysis { tracker := [("s1".data, 0)], db := exDB } 2000
      (fun _ => Except.error ())).2.tracker, p.1 ≠ "s1".data) ∧
    countRecords (run_periodic_analysis { tracker := [("s1".data, 0)], db := exDB } 2000
      (fun _ => Except.error ())).2.db "s1".data = 1 := by
  refine ⟨c9_amended_sweep_behavior.2.1 _ 0 _ (by decide), ?_, ?_⟩
  · exact c9_amended_sweep_behavior.2.2.1 _ 2000 _ "s1".data (by decide)
  · exact c9_amended_sweep_behavior.2.2.2 _ 2000 _ "s1".data (by decide) (by decide)
      (by decide) (by decide) (by rfl)

/-! ## Lemmas about the confusion-session query -/

theorem mem_insertDescRow (x r : ConfusionRow) :
    ∀ l : List ConfusionRow, r ∈ insertDescRow x l ↔ r = x ∨ r ∈ l := by
  intro l
  induction l with
  | nil => simp [insertDescRow]
  | cons y ys ih =>
    rw [insertDescRow]
    by_cases hle : y.created_at ≤ x.created_at
    · simp [hle]
    · simp only [hle, if_false, List.mem_cons, ih]
      tauto

theorem mem_sortDescRows (r : ConfusionRow) :
    ∀ l : List ConfusionRow, r ∈ sortDescRows l ↔ r ∈ l := by
  intro l
  induction l with
  | nil => simp [sortDescRows]
  | cons y ys ih =>
    rw [sortDescRows, List.foldr_cons]
    rw [show List.foldr insertDescRow [] ys = sortDescRows ys from rfl]
    rw [mem_insertDescRow, ih]
    simp [eq_comm]

theorem pairwise_insertDescRow (x : ConfusionRow) :
    ∀ l : List ConfusionRow,
      l.Pairwise (fun a b => b.created_at ≤ a.created_at) →
      (insertDescRow x l).Pairwise (fun a b => b.created_at ≤ a.created_at) := by
  intro l
  induction l with
  | nil => intro h; simp [insertDescRow]
  | cons y ys ih =>
    intro h
    rw [List.pairwise_cons] at h
    rw [insertDescRow]
    by_cases hle : y.created_at ≤ x.created_at
    · simp only [hle, if_true]
      rw [List.pairwise_cons]
      constructor
      · intro z hz
        rcases List.mem_cons.mp hz with rfl | hz2
        · exact hle
        · exact Nat.le_trans (h.1 z hz2) hle
      · exact List.pairwise_cons.mpr h
    · simp only [hle, if_false]
      rw [List.pairwise_cons]
      constructor
      · intro z hz
        rcases (mem_insertDescRow x z ys).mp hz with rfl | hz2
        · exact Nat.le_of_lt (Nat.lt_of_not_le hle)
        · exact h.1 z hz2
      · exact ih h.2

theorem pairwise_sortDescRows :
    ∀ l : List ConfusionRow,
      (sortDescRows l).Pairwise (fun a b => b.created_at ≤ a.created_at) := by
  intro l
  induction l with
  | nil => simp [sortDescRows]
  | cons y ys ih =>
    rw [sortDescRows, List.foldr_cons]
    exact pairwise_insertDescRow y _ ih

theorem dedupBySession_sublist :
    ∀ (l : List ConfusionRow) (seen : List Str), List.Sublist (dedupBySession seen l) l := by
  intro l
  induction l with
  | nil => intro seen; exact List.Sublist.refl _
  | cons r rest ih =>
    intro seen
    rw [dedupBySession]
    by_cases hm : r.session_id ∈ seen
    · simp only [hm, if_true]
      exact List.Sublist.cons r (ih seen)
    · simp only [hm, if_false]
      exact List.Sublist.cons₂ r (ih _)

theorem mem_map_dedupBySession (k : Str) :
    ∀ (l : List ConfusionRow) (seen : List Str),
      k ∈ (dedupBySession seen l).map (fun r => r.session_id) ↔
        k ∈ l.map (fun r => r.session_id) ∧ k ∉ seen := by
  intro l
  induction l with
  | nil => intro seen; simp [dedupBySession]
  | cons r rest ih =>
    intro seen
    rw [dedupBySession]
    by_cases hm : r.session_id ∈ seen
    · simp only [hm, if_true, ih, List.map_cons, List.mem_cons]
      constructor
      · rintro ⟨h1, h2⟩
        exact ⟨Or.inr h1, h2⟩
      · rintro ⟨h1 | h1, h2⟩
        · subst h1; exact absurd hm h2
        · exact ⟨h1, h2⟩
    · simp only [hm, if_false, List.map_cons, List.mem_cons, ih, List.mem_cons]
      constructor
      · rintro (rfl | ⟨h1, h2⟩)
        · exact ⟨Or.inl rfl, hm⟩
        · exact ⟨Or.inr h1, fun hx => h2 (Or.inr hx)⟩
      · rintro ⟨rfl | h1, h2⟩
        · exact Or.inl rfl
        · by_cases hk : k = r.session_id
          · exact Or.inl hk
          · exact Or.inr ⟨h1, fun hx => (by rcases hx with hx | hx; exact hk hx; exact h2 hx)⟩

/-- Membership characterization of `get_confusion_sessions`: a session id is
returned exactly when some stored row of that session satisfies the WHERE
predicate the source builds. -/
theorem get_confusion_sessions_mem_iff (db : DB) (course_id : Option Int)
    (unit : Option Str) (topics : Option (List Str)) (s : Str) :
    s ∈ get_confusion_sessions db course_id unit topics ↔
      ∃ r ∈ db.confusion_points,
        confusionRowMatches course_id unit topics r = true ∧ r.session_id = s := by
  unfold get_confusion_sessions
  rw [mem_map_dedupBySession]
  simp only [List.not_mem_nil, not_false_iff, and_true, List.mem_map]
  constructor
  · rintro ⟨r, hr, rfl⟩
    rw [mem_sortDescRows] at hr
    rw [List.mem_filter] at hr
    exact ⟨r, hr.1, hr.2, rfl⟩
  · rintro ⟨r, hr, hm, rfl⟩
    exact ⟨r, (mem_sortDescRows r _).mpr (List.mem_filter.mpr ⟨hr, hm⟩), rfl⟩

/-- Ordering guarantee of `get_confusion_sessions`: the returned ids are the
session ids of matching rows listed in descending creation-time order. -/
theorem get_confusion_sessions_ordered (db : DB) (course_id : Option Int)
    (unit : Option Str) (topics : Option (List Str)) :
    ∃ rows : List ConfusionRow,
      get_confusion_sessions db course_id unit topics =
        rows.map (fun r => r.session_id) ∧
      rows.Pairwise (fun a b => b.created_at ≤ a.created_at) ∧
      ∀ r ∈ rows, r ∈ db.confusion_points ∧
        confusionRowMatches course_id unit topics r = true := by
  refine ⟨dedupBySession []
    (sortDescRows (db.confusion_points.filter (confusionRowMatches course_id unit topics))),
    rfl, ?_, ?_⟩
  · exact List.Pairwise.sublist (dedupBySession_sublist _ []) (pairwise_sortDescRows _)
  · intro r hr
    have h1 := (dedupBySession_sublist _ ([] : List Str)).subset hr
    rw [mem_sortDescRows] at h1
    rw [List.mem_filter] at h1
    exact ⟨h1.1, h1.2⟩

/-- A stored record for session `s1` with topics `["loops"]`. -/
def exRowLoops : ConfusionRow :=
  { session_id := "s1".data, course_id := SqlVal.int 7, unit := SqlVal.text "Unit 1".data,
    topics := dumpStrList ["loops".data], confused_conversation_ids := "[1]".data,
    created_at := 1 }

/-- A stored record for session `s2` with topics `["recursion"]`. -/
def exRowRec : ConfusionRow :=
  { session_id := "s2".data, course_id := SqlVal.int 7, unit := SqlVal.text "Unit 1".data,
    topics := dumpStrList ["recursion".data], confused_conversation_ids := "[2]".data,
    created_at := 2 }

/-- A stored record for session `s3` with topics `["pointers"]`. -/
def exRowPtr : ConfusionRow :=
  { session_id := "s3".data, course_id := SqlVal.int 7, unit := SqlVal.text "Unit 1".data,
    topics := dumpStrList ["pointers".data], confused_conversation_ids := "[3]".data,
    created_at := 3 }

/-- A stored record with a null course id (no course classified). -/
def exRowNull : ConfusionRow :=
  { session_id := "s9".data, course_id := SqlVal.null, unit := SqlVal.null,
    topics := "[]".data, confused_conversation_ids := "[]".data, created_at := 7 }

/-- C4 counterexample: the record `exRowLoops` stores the topic list
`["loops"]` (as its JSON text), and the requested topic `"LOOPS"` is not an
element of that list — yet the query returns the session, because the
source matches topics with a case-insensitive SQL `LIKE` over the stored
JSON text rather than list membership.  The claim's "matches iff the
record's topic list contains at least one of the requested topics" is
therefore false. -/
theorem c4_counterexample_like_matching :
    exRowLoops.topics = dumpStrList ["loops".data] ∧
    ("LOOPS".data ∈ ["loops".data] → False) ∧
    get_confusion_sessions
      { conversations := [], courses := [], confusion_points := [exRowLoops], clock := 9 }
      (some 7) none (some ["LOOPS".data]) = ["s1".data] := by
  refine ⟨rfl, by decide, by rfl⟩


/-- C4 (amended): for a nonzero requested course id, a record matches iff
its `course_id` equals the request exactly, AND (no non-empty unit is
requested OR the record's unit equals it exactly), AND (the non-empty
requested topic list has at least one topic `t` — OR/union — whose pattern
`"t"` matches the record's stored topic JSON text under SQLite `LIKE`
semantics: case-insensitive for ASCII, with `%`/`_` wildcards, so exact
list membership is sufficient for ASCII-exact topics but not necessary).
Returned ids are ordered by record creation time descending.  The two
concrete scenarios hold: `R1{topics:["loops"]}` and `R2{topics:["recursion"]}`
of the same course are both returned for `topics=["loops","recursion"]`,
and `unit="Unit 1", topics=["loops"]` against `{topics:["pointers"]}`
returns nothing. -/
theorem c4_amended_matching_rule :
    (∀ (db : DB) (c : Int) (ts : List Str) (s : Str), c ≠ 0 → ts ≠ [] →
      (s ∈ get_confusion_sessions db (some c) none (some ts) ↔
        ∃ r ∈ db.confusion_points, r.session_id = s ∧ r.course_id = SqlVal.int c ∧
          ∃ t ∈ ts, likeM (topicPattern t) r.topics = true)) ∧
    (∀ (db : DB) (c : Int) (uv : Str) (ts : List Str) (s : Str),
      c ≠ 0 → uv ≠ [] → ts ≠ [] →
      (s ∈ get_confusion_sessions db (some c) (some uv) (some ts) ↔
        ∃ r ∈ db.confusion_points, r.session_id = s ∧ r.course_id = SqlVal.int c ∧
          r.unit = SqlVal.text uv ∧ ∃ t ∈ ts, likeM (topicPattern t) r.topics = true)) ∧
    (∀ (db : DB) (course_id : Option Int) (unit : Option Str) (topics : Option (List Str)),
      ∃ rows : List ConfusionRow,
        get_confusion_sessions db course_id unit topics =
          rows.map (fun r => r.session_id) ∧
        rows.Pairwise (fun a b => b.created_at ≤ a.created_at) ∧
        ∀ r ∈ rows, r ∈ db.confusion_points ∧
          confusionRowMatches course_id unit topics r = true) ∧
    get_confusion_sessions
      { conversations := [], courses := [], confusion_points := [exRowLoops, exRowRec], clock := 9 }
      (some 7) none (some ["loops".data, "recursion".data]) = ["s2".data, "s1".data] ∧
    get_confusion_sessions
      { conversations := [], courses := [], confusion_points := [exRowPtr], clock := 9 }
      (some 7) (some "Unit 1".data) (some ["loops".data]) = [] := by
  refine ⟨?_, ?_, fun db c u t => get_confusion_sessions_ordered db c u t, by rfl, by rfl⟩
  · intro db c ts s hc hts
    rw [get_confusion_sessions_mem_iff]
    constructor
    · rintro ⟨r, hr, hm, rfl⟩
      simp [confusionRowMatches, hc, hts] at hm
      exact ⟨r, hr, rfl, hm.1, hm.2⟩
    · rintro ⟨r, hr, rfl, hcid, ht⟩
      refine ⟨r, hr, ?_, rfl⟩
      simp [confusionRowMatches, hc, hts]
      exact ⟨hcid, ht⟩
  · intro db c uv ts s hc huv hts
    rw [get_confusion_sessions_mem_iff]
    constructor
    · rintro ⟨r, hr, hm, rfl⟩
      simp [confusionRowMatches, hc, huv, hts] at hm
      exact ⟨r, hr, rfl, hm.1.1, hm.1.2, hm.2⟩
    · rintro ⟨r, hr, rfl, hcid, hu, ht⟩
      refine ⟨r, hr, ?_, rfl⟩
      simp [confusionRowMatches, hc, huv, hts]
      exact ⟨⟨hcid, hu⟩, ht⟩

/-- C4 witness: the amended matching rule applied at nonzero course 7,
non-empty unit and topic arguments, on a store holding `exRowLoops`. -/
theorem c4_amended_matching_rule_witness :
    ("s1".data ∈ get_confusion_sessions
      { conversations := [], courses := [], confusion_points := [exRowLoops], clock := 9 }
      (some 7) none (some ["loops".data]) ↔
      ∃ r ∈ [exRowLoops], r.session_id = "s1".data ∧ r.course_id = SqlVal.int 7 ∧
        ∃ t ∈ ["loops".data], likeM (topicPattern t) r.topics = true) ∧
    ("s3".data ∈ get_confusion_sessions
      { conversations := [], courses := [], confusion_points := [exRowPtr], clock := 9 }
      (some 7) (some "Unit 1".data) (some ["loops".data]) ↔
      ∃ r ∈ [exRowPtr], r.session_id = "s3".data ∧ r.course_id = SqlVal.int 7 ∧
        r.unit = SqlVal.text "Unit 1".data ∧
        ∃ t ∈ ["loops".data], likeM (topicPattern t) r.topics = true) := by
  constructor
  · exact c4_amended_matching_rule.1
      { conversations := [], courses := [], confusion_points := [exRowLoops], clock := 9 }
      7 ["loops".data] "s1".data (by decide) (by decide)
  · exact c4_amended_matching_rule.2.1
      { conversations := [], courses := [], confusion_points := [exRowPtr], clock := 9 }
      7 "Unit 1".data ["loops".data] "s3".data (by decide) (by decide) (by decide)

/-- C10: a falsy `course_id` argument (`None` or `0`) adds no course filter
at all: the two calls coincide; with no other filters the query returns the
session ids of every stored record, including records whose course id is
null; and with unit/topic filters the matching rule involves no course
condition.  The concrete store shows a null-course record being returned. -/
theorem c10_falsy_course_unfiltered :
    (∀ (db : DB) (unit : Option Str) (topics : Option (List Str)),
      get_confusion_sessions db none unit topics =
        get_confusion_sessions db (some 0) unit topics) ∧
    (∀ (db : DB) (s : Str),
      s ∈ get_confusion_sessions db none none none ↔
        ∃ r ∈ db.confusion_points, r.session_id = s) ∧
    (∀ (db : DB) (uv : Str) (ts : List Str) (s : Str), uv ≠ [] → ts ≠ [] →
      (s ∈ get_confusion_sessions db none (some uv) (some ts) ↔
        ∃ r ∈ db.confusion_points, r.session_id = s ∧ r.unit = SqlVal.text uv ∧
          ∃ t ∈ ts, likeM (topicPattern t) r.topics = true)) ∧
    get_confusion_sessions
      { conversations := [], courses := [], confusion_points := [exRowLoops, exRowNull], clock := 9 }
      none none none = ["s9".data, "s1".data] ∧
    get_confusion_sessions
      { conversations := [], courses := [], confusion_points := [exRowLoops, exRowNull], clock := 9 }
      (some 0) none none = ["s9".data, "s1".data] := by
  refine ⟨?_, ?_, ?_, by rfl, by rfl⟩
  · intro db unit topics
    rfl
  · intro db s
    rw [get_confusion_sessions_mem_iff]
    constructor
    · rintro ⟨r, hr, _, rfl⟩
      exact ⟨r, hr, rfl⟩
    · rintro ⟨r, hr, rfl⟩
      exact ⟨r, hr, rfl, rfl⟩
  · intro db uv ts s huv hts
    rw [get_confusion_sessions_mem_iff]
    constructor
    · rintro ⟨r, hr, hm, rfl⟩
      simp [confusionRowMatches, huv, hts] at hm
      exact ⟨r, hr, rfl, hm.1, hm.2⟩
    · rintro ⟨r, hr, rfl, hu, ht⟩
      refine ⟨r, hr, ?_, rfl⟩
      simp [confusionRowMatches, huv, hts]
      exact ⟨hu, ht⟩

/-- C10 witness: the unit/topics part of the theorem instantiated on the
mixed store, returning the matching record with no course condition. -/
theorem c10_falsy_course_unfiltered_witness :
    "s1".data ∈ get_confusion_sessions
      { conversations := [], courses := [], confusion_points := [exRowLoops, exRowNull], clock := 9 }
      none (some "Unit 1".data) (some ["loops".data]) ↔
      ∃ r ∈ [exRowLoops, exRowNull], r.session_id = "s1".data ∧
        r.unit = SqlVal.text "Unit 1".data ∧
        ∃ t ∈ ["loops".data], likeM (topicPattern t) r.topics = true :=
  c10_falsy_course_unfiltered.2.2.1
    { conversations := [], courses := [], confusion_points := [exRowLoops, exRowNull], clock := 9 }
    "Unit 1".data ["loops".data] "s1".data (by decide) (by decide)

/-! ## Lemmas about Python dict updates and the grading validator -/

theorem containsKey_insertKV_self :
    ∀ (kvs : List (Str × Json)) (k : Str) (v : Json),
      containsKey (insertKV kvs k v) k = true := by
  intro kvs k v
  induction kvs with
  | nil => simp [insertKV, containsKey]
  | cons p rest ih =>
    rw [insertKV]
    by_cases h : p.1 = k
    · rcases p with ⟨k0, v0⟩
      simp only at h
      simp [h, containsKey]
    · rcases p with ⟨k0, v0⟩
      simp only at h
      simp only [h, if_false, containsKey, List.any_cons]
      simp only [containsKey] at ih
      simp [ih]

theorem containsKey_insertKV_ne :
    ∀ (kvs : List (Str × Json)) (k : Str) (v : Json) (g : Str), g ≠ k →
      containsKey (insertKV kvs k v) g = containsKey kvs g := by
  intro kvs k v g hne
  induction kvs with
  | nil =>
    simp [insertKV, containsKey, beq_eq_false_iff_ne.mpr (Ne.symm hne)]
  | cons p rest ih =>
    rw [insertKV]
    rcases p with ⟨k0, v0⟩
    by_cases h : k0 = k
    · simp [h, containsKey, beq_eq_false_iff_ne.mpr (Ne.symm hne)]
    · simp only [h, if_false, containsKey, List.any_cons]
      simp only [containsKey] at ih
      rw [ih]

theorem pyGet_insertKV_self :
    ∀ (kvs : List (Str × Json)) (k : Str) (v : Json),
      pyGet (insertKV kvs k v) k = v := by
  intro kvs k v
  induction kvs with
  | nil => simp [insertKV, pyGet, pyGetD]
  | cons p rest ih =>
    rw [insertKV]
    rcases p with ⟨k0, v0⟩
    by_cases h : k0 = k
    · simp [h, pyGet, pyGetD]
    · simp only [h, if_false, pyGet, pyGetD, List.find?]
      rw [show (k0 == k) = false from beq_eq_false_iff_ne.mpr h]
      exact ih

theorem pyGet_insertKV_ne :
    ∀ (kvs : List (Str × Json)) (k : Str) (v : Json) (g : Str), g ≠ k →
      pyGet (insertKV kvs k v) g = pyGet kvs g := by
  intro kvs k v g hne
  induction kvs with
  | nil =>
    simp [insertKV, pyGet, pyGetD, List.find?,
      show (k == g) = false from beq_eq_false_iff_ne.mpr (Ne.symm hne)]
  | cons p rest ih =>
    rw [insertKV]
    rcases p with ⟨k0, v0⟩
    by_cases h : k0 = k
    · subst h
      simp [pyGet, pyGetD, List.find?,
        show (k0 == g) = false from beq_eq_false_iff_ne.mpr (Ne.symm hne)]
    · simp only [h, if_false, pyGet, pyGetD, List.find?]
      rcases hk0 : (k0 == g)
      · exact ih
      · rfl

theorem fillStep_contains_self (x : List (Str × Json)) (f : Str) :
    containsKey (fillStep x f) f = true := by
  rw [fillStep]
  rcases h : containsKey x f
  · simp only [Bool.false_eq_true, if_false]
    exact containsKey_insertKV_self x f _
  · simp only [if_true]
    exact h

theorem fillStep_contains_mono (x : List (Str × Json)) (f g : Str)
    (h : containsKey x g = true) : containsKey (fillStep x f) g = true := by
  rw [fillStep]
  rcases hc : containsKey x f
  · simp only [Bool.false_eq_true, if_false]
    by_cases hgf : g = f
    · subst hgf
      exact containsKey_insertKV_self x g _
    · rw [containsKey_insertKV_ne x f _ g hgf]
      exact h
  · simp only [if_true]
    exact h

theorem fillStep_contains_ne (x : List (Str × Json)) (f g : Str) (hgf : g ≠ f) :
    containsKey (fillStep x f) g = containsKey x g := by
  rw [fillStep]
  rcases hc : containsKey x f
  · simp only [Bool.false_eq_true, if_false]
    exact containsKey_insertKV_ne x f _ g hgf
  · simp only [if_true]

theorem fillStep_get_ne (x : List (Str × Json)) (f g : Str) (hgf : g ≠ f) :
    pyGet (fillStep x f) g = pyGet x g := by
  rw [fillStep]
  rcases hc : containsKey x f
  · simp only [Bool.false_eq_true, if_false]
    exact pyGet_insertKV_ne x f _ g hgf
  · simp only [if_true]

theorem fillStep_get_missing (x : List (Str × Json)) (f : Str)
    (h : containsKey x f = false) : pyGet (fillStep x f) f = Json.str [] := by
  rw [fillStep, h]
  simp only [Bool.false_eq_true, if_false]
  exact pyGet_insertKV_self x f _

theorem fillFeedback_unfold (fkvs : List (Str × Json)) :
    fillFeedback fkvs =
      fillStep (fillStep (fillStep (fillStep fkvs "strengths".data)
        "areas_for_improvement".data) "suggestions".data) "encouragement".data := rfl

/-- After the defaulting loop, every one of the four feedback sub-fields is
present. -/
theorem fillFeedback_contains (fkvs : List (Str × Json)) :
    ∀ f ∈ feedbackFields, containsKey (fillFeedback fkvs) f = true := by
  intro f hf
  rw [fillFeedback_unfold]
  simp only [feedbackFields, List.mem_cons, List.not_mem_nil, or_false] at hf
  rcases hf with rfl | rfl | rfl | rfl
  · exact fillStep_contains_mono _ _ _ (fillStep_contains_mono _ _ _
      (fillStep_contains_mono _ _ _ (fillStep_contains_self fkvs _)))
  · exact fillStep_contains_mono _ _ _ (fillStep_contains_mono _ _ _
      (fillStep_contains_self _ _))
  · exact fillStep_contains_mono _ _ _ (fillStep_contains_self _ _)
  · exact fillStep_contains_self _ _

/-- A feedback sub-field that was missing is defaulted to the empty
string. -/
theorem fillFeedback_missing_default (fkvs : List (Str × Json)) :
    ∀ f ∈ feedbackFields, containsKey fkvs f = false →
      pyGet (fillFeedback fkvs) f = Json.str [] := by
  intro f hf hmiss
  rw [fillFeedback_unfold]
  simp only [feedbackFields, List.mem_cons, List.not_mem_nil, or_false] at hf
  rcases hf with rfl | rfl | rfl | rfl
  · rw [fillStep_get_ne _ _ _ (by decide), fillStep_get_ne _ _ _ (by decide),
      fillStep_get_ne _ _ _ (by decide)]
    exact fillStep_get_missing fkvs _ hmiss
  · rw [fillStep_get_ne _ _ _ (by decide), fillStep_get_ne _ _ _ (by decide)]
    apply fillStep_get_missing
    rw [fillStep_contains_ne _ _ _ (by decide)]
    exact hmiss
  · rw [fillStep_get_ne _ _ _ (by decide)]
    apply fillStep_get_missing
    rw [fillStep_contains_ne _ _ _ (by decide), fillStep_contains_ne _ _ _ (by decide)]
    exact hmiss
  · apply fillStep_get_missing
    rw [fillStep_contains_ne _ _ _ (by decide), fillStep_contains_ne _ _ _ (by decide),
      fillStep_contains_ne _ _ _ (by decide)]
    exact hmiss

/-- Field access on a JSON object (statement helper). -/
def jsonField (j : Json) (k : Str) : Json :=
  match j with
  | Json.obj kvs => pyGet kvs k
  | _ => Json.null

theorem fallback_feedback_present :
    ∃ fb, jsonField fallbackGrading "feedback".data = Json.obj fb ∧
      feedbackFields.all (fun f => containsKey fb f) = true := ⟨_, rfl, rfl⟩

/-- C6: `grade_student_answer` never propagates a failure.  A completion
failure or unparseable response returns the fixed neutral fallback; a
parsed object missing any of the four required top-level fields is a hard
parse failure and also returns the fallback; with all four present and an
object-shaped `feedback`, the result is the parsed object with every
missing feedback sub-field defaulted to the empty string; the fallback
carries `score_percentage = 75` and category `"Good"`; and for every
completion outcome whatsoever the result's `feedback` is an object holding
all four sub-fields. -/
theorem c6_grading_fallback :
    (∀ (q qt a : Str) (h : Option Str),
      grade_student_answer q qt a h (Except.error ()) = fallbackGrading) ∧
    (∀ (q qt a : Str) (h : Option Str) (t : String),
      jsonLoads (extract_json_text (pyStrip t.data)) = none →
      grade_student_answer q qt a h (Except.ok t) = fallbackGrading) ∧
    (∀ (q qt a : Str) (h : Option Str) (llm : Except Unit String) (kvs : List (Str × Json)),
      llmJson llm = some (Json.obj kvs) →
      requiredGradingFields.all (fun f => containsKey kvs f) = false →
      grade_student_answer q qt a h llm = fallbackGrading) ∧
    (∀ (q qt a : Str) (h : Option Str) (llm : Except Unit String)
        (kvs fkvs : List (Str × Json)),
      llmJson llm = some (Json.obj kvs) →
      requiredGradingFields.all (fun f => containsKey kvs f) = true →
      pyGet kvs "feedback".data = Json.obj fkvs →
      grade_student_answer q qt a h llm =
        Json.obj (setKey kvs "feedback".data (Json.obj (fillFeedback fkvs))) ∧
      (∀ f ∈ feedbackFields, containsKey (fillFeedback fkvs) f = true ∧
        (containsKey fkvs f = false → pyGet (fillFeedback fkvs) f = Json.str []))) ∧
    jsonField fallbackGrading "score_percentage".data = Json.num 75 ∧
    jsonField fallbackGrading "score_category".data = Json.str "Good".data ∧
    (∀ (q qt a : Str) (h : Option Str) (llm : Except Unit String),
      ∃ fb, jsonField (grade_student_answer q qt a h llm) "feedback".data = Json.obj fb ∧
        feedbackFields.all (fun f => containsKey fb f) = true) := by
  refine ⟨fun q qt a h => rfl, ?_, ?_, ?_, rfl, rfl, ?_⟩
  · intro q qt a h t hload
    unfold grade_student_answer llmJson
    simp [hload]
  · intro q qt a h llm kvs hllm hall
    unfold grade_student_answer
    rw [hllm]
    simp [hall]
  · intro q qt a h llm kvs fkvs hllm hall hfb
    constructor
    · unfold grade_student_answer
      rw [hllm]
      simp [hall, hfb]
    · intro f hf
      exact ⟨fillFeedback_contains fkvs f hf, fillFeedback_missing_default fkvs f hf⟩
  · intro q qt a h llm
    rcases hj : llmJson llm with _ | v
    · have hg : grade_student_answer q qt a h llm = fallbackGrading := by
        unfold grade_student_answer
        rw [hj]
      rw [hg]
      exact fallback_feedback_present
    · have hgen : ∀ w : Json, (∀ kvs2, w ≠ Json.obj kvs2) →
          grade_student_answer q qt a h llm = fallbackGrading ∨ True := fun _ _ => Or.inr trivial
      rcases v with _ | b | n | sv | elems | kvs
      · have hg : grade_student_answer q qt a h llm = fallbackGrading := by
          unfold grade_student_answer
          rw [hj]
        rw [hg]
        exact fallback_feedback_present
      · have hg : grade_student_answer q qt a h llm = fallbackGrading := by
          unfold grade_student_answer
          rw [hj]
        rw [hg]
        exact fallback_feedback_present
      · have hg : grade_student_answer q qt a h llm = fallbackGrading := by
          unfold grade_student_answer
          rw [hj]
        rw [hg]
        exact fallback_feedback_present
      · have hg : grade_student_answer q qt a h llm = fallbackGrading := by
          unfold grade_student_answer
          rw [hj]
        rw [hg]
        exact fallback_feedback_present
      · have hg : grade_student_answer q qt a h llm = fallbackGrading := by
          unfold grade_student_answer
          rw [hj]
        rw [hg]
        exact fallback_feedback_present
      · rcases hall : requiredGradingFields.all (fun f => containsKey kvs f)
        · have hg : grade_student_answer q qt a h llm = fallbackGrading := by
            unfold grade_student_answer
            rw [hj]
            simp [hall]
          rw [hg]
          exact fallback_feedback_present
        · rcases hfb : pyGet kvs "feedback".data with _ | b | n | sv | elems | fkvs
          case obj =>
            have hg : grade_student_answer q qt a h llm =
                Json.obj (setKey kvs "feedback".data (Json.obj (fillFeedback fkvs))) := by
              unfold grade_student_answer
              rw [hj]
              simp [hall, hfb]
            rw [hg]
            refine ⟨fillFeedback fkvs, ?_, ?_⟩
            · show pyGet (insertKV kvs "feedback".data (Json.obj (fillFeedback fkvs)))
                "feedback".data = Json.obj (fillFeedback fkvs)
              exact pyGet_insertKV_self kvs "feedback".data _
            · exact List.all_eq_true.mpr (fun f hf => fillFeedback_contains fkvs f hf)
          all_goals
            have hg : grade_student_answer q qt a h llm = fallbackGrading := by
              unfold grade_student_answer
              rw [hj]
              simp [hall, hfb]
            rw [hg]
            exact fallback_feedback_present

/-- C6 witness: the validator parts at concrete completion responses — a
missing top-level field falls back, and a response missing feedback
sub-fields has them defaulted. -/
theorem c6_grading_fallback_witness :
    grade_student_answer "q".data "t".data "a".data none
      (Except.ok "\x7b\"score_percentage\": 90, \"score_category\": \"Great\"\x7d") =
      fallbackGrading ∧
    grade_student_answer "q".data "t".data "a".data none
      (Except.ok "\x7b\"score_percentage\": 90, \"score_category\": \"G\", \"feedback\": \x7b\"strengths\": \"s\"\x7d, \"overall_assessment\": \"ok\"\x7d") =
      Json.obj (setKey
        [("score_percentage".data, Json.num 90), ("score_category".data, Json.str "G".data),
         ("feedback".data, Json.obj [("strengths".data, Json.str "s".data)]),
         ("overall_assessment".data, Json.str "ok".data)]
        "feedback".data (Json.obj (fillFeedback [("strengths".data, Json.str "s".data)]))) ∧
    pyGet (fillFeedback [("strengths".data, Json.str "s".data)]) "suggestions".data =
      Json.str [] := by
  refine ⟨?_, ?_, ?_⟩
  · exact c6_grading_fallback.2.2.1 "q".data "t".data "a".data none
      (Except.ok "\x7b\"score_percentage\": 90, \"score_category\": \"Great\"\x7d")
      [("score_percentage".data, Json.num 90), ("score_category".data, Json.str "Great".data)]
      (by rfl) (by rfl)
  · exact (c6_grading_fallback.2.2.2.1 "q".data "t".data "a".data none
      (Except.ok "\x7b\"score_percentage\": 90, \"score_category\": \"G\", \"feedback\": \x7b\"strengths\": \"s\"\x7d, \"overall_assessment\": \"ok\"\x7d")
      [("score_percentage".data, Json.num 90), ("score_category".data, Json.str "G".data),
       ("feedback".data, Json.obj [("strengths".data, Json.str "s".data)]),
       ("overall_assessment".data, Json.str "ok".data)]
      [("strengths".data, Json.str "s".data)]
      (by rfl) (by rfl) (by rfl)).1
  · exact ((c6_grading_fallback.2.2.2.1 "q".data "t".data "a".data none
      (Except.ok "\x7b\"score_percentage\": 90, \"score_category\": \"G\", \"feedback\": \x7b\"strengths\": \"s\"\x7d, \"overall_assessment\": \"ok\"\x7d")
      [("score_percentage".data, Json.num 90), ("score_category".data, Json.str "G".data),
       ("feedback".data, Json.obj [("strengths".data, Json.str "s".data)]),
       ("overall_assessment".data, Json.str "ok".data)]
      [("strengths".data, Json.str "s".data)]
      (by rfl) (by rfl) (by rfl)).2 "suggestions".data (by decide)).2 (by rfl)

/-! ## Lemmas for the synthesis context builder -/

/-- Concatenation of a list of strings (statement helper). -/
def listJoin : List Str → Str
  | [] => []
  | s :: rest => s ++ listJoin rest

theorem foldl_guard_join {α : Type} (p : α → Bool) (f : α → Str) :
    ∀ (l : List α) (acc : Str),
      l.foldl (fun a c => if p c then a ++ f c else a) acc =
        acc ++ listJoin ((l.filter p).map f) := by
  intro l
  induction l with
  | nil => intro acc; simp [listJoin]
  | cons c rest ih =>
    intro acc
    rw [List.foldl_cons]
    rcases hp : p c
    · rw [List.filter_cons_of_neg (by simp [hp])]
      simp only [Bool.false_eq_true, if_false]
      exact ih acc
    · rw [List.filter_cons_of_pos (by simp [hp])]
      simp only [if_true]
      rw [ih (acc ++ f c), List.map_cons]
      rw [show listJoin (f c :: List.map f (List.filter p rest)) =
        f c ++ listJoin (List.map f (List.filter p rest)) from rfl]
      rw [List.append_assoc]

theorem foldl_join {α : Type} (f : α → Str) :
    ∀ (l : List α) (acc : Str),
      l.foldl (fun a c => a ++ f c) acc = acc ++ listJoin (l.map f) := by
  intro l
  induction l with
  | nil => intro acc; simp [listJoin]
  | cons c rest ih =>
    intro acc
    rw [List.foldl_cons, ih (acc ++ f c), List.map_cons]
    rw [show listJoin (f c :: List.map f rest) = f c ++ listJoin (List.map f rest) from rfl]
    rw [List.append_assoc]

/-- C7: review synthesis restricts its prompt context to the flagged
conversations and never propagates a failure.  The per-session context
equals the header followed by the blocks of exactly the conversations whose
id is in the session's `confused_conversation_ids` (a conversation is
flagged iff an analysis is present and lists its id); the whole context is
the concatenation over the sessions; and when the completion call fails or
its response yields no JSON document, the result is the fixed fallback
payload — a single generic summary string and exactly one generic
question. -/
theorem c7_synthesis_context_and_fallback :
    (∀ session : SessionData,
      sessionContext session =
        sessionHeaderBlock session ++
          (listJoin (((session.conversations.filter
            (fun c => isConfusedConv session c))).map convContextBlock) ++ "\n".data)) ∧
    (∀ (session : SessionData) (conv : Conversation),
      conv ∈ session.conversations.filter (fun c => isConfusedConv session c) ↔
        conv ∈ session.conversations ∧
          ∃ ca, session.confusion_analysis = some ca ∧
            ca.confused_conversation_ids.contains conv.id = true) ∧
    (∀ sessions : List SessionData,
      buildReviewContext sessions = listJoin (sessions.map sessionContext)) ∧
    (∀ (sessions : List SessionData) (llm : Str → Except Unit String),
      llm (buildReviewContext sessions) = Except.error () →
      generate_review_content sessions llm = fallbackReview) ∧
    (∀ (sessions : List SessionData) (llm : Str → Except Unit String) (t : String),
      llm (buildReviewContext sessions) = Except.ok t →
      jsonLoads (extract_json_text (pyStrip t.data)) = none →
      generate_review_content sessions llm = fallbackReview) ∧
    (∃ summary q1, fallbackReview =
      Json.obj [("summary".data, Json.str summary), ("questions".data, Json.arr [q1])]) := by
  refine ⟨?_, ?_, ?_, ?_, ?_, ⟨_, _, rfl⟩⟩
  · intro session
    unfold sessionContext
    rw [foldl_guard_join (fun c => isConfusedConv session c) convContextBlock
      session.conversations (sessionHeaderBlock session)]
    rw [List.append_assoc]
  · intro session conv
    rw [List.mem_filter]
    unfold isConfusedConv
    constructor
    · rintro ⟨h1, h2⟩
      rcases hca : session.confusion_analysis with _ | ca
      · rw [hca] at h2
        exact absurd h2 (by simp)
      · rw [hca] at h2
        exact ⟨h1, ca, rfl, h2⟩
    · rintro ⟨h1, ca, hca, h2⟩
      rw [hca]
      exact ⟨h1, h2⟩
  · intro sessions
    unfold buildReviewContext
    rw [foldl_join sessionContext sessions []]
    rfl
  · intro sessions llm herr
    unfold generate_review_content llmJson
    simp [herr]
  · intro sessions llm t hok hload
    unfold generate_review_content llmJson
    simp [hok, hload]

/-- A session whose analysis flags only conversation 1. -/
def exSession : SessionData :=
  { session_id := "s1".data,
    conversations :=
      [exConv1,
       { id := 2, session_id := "s1".data, user_message := "Thanks!".data,
         ai_response := "You are welcome.".data, created_at := 11 }],
    confusion_analysis := some
      { course_id := SqlVal.int 7, unit := some "Unit 1".data,
        topics := ["pointers".data], confused_conversation_ids := [1], created_at := 3 } }

/-- C7 witness: the context of `exSession` holds exactly the flagged
conversation's block, and a failing synthesis call returns the fallback. -/
theorem c7_synthesis_context_and_fallback_witness :
    sessionContext exSession =
      sessionHeaderBlock exSession ++
        (listJoin ([exConv1].map convContextBlock) ++ "\n".data) ∧
    (exConv1 ∈ exSession.conversations.filter (fun c => isConfusedConv exSession c) ↔
      exConv1 ∈ exSession.conversations ∧
        ∃ ca, exSession.confusion_analysis = some ca ∧
          ca.confused_conversation_ids.contains exConv1.id = true) ∧
    generate_review_content [exSession] (fun _ => Except.error ()) = fallbackReview := by
  refine ⟨?_, ?_, ?_⟩
  · have h := c7_synthesis_context_and_fallback.1 exSession
    rw [h]
    rfl
  · exact c7_synthesis_context_and_fallback.2.1 exSession exConv1
  · exact c7_synthesis_context_and_fallback.2.2.2.1 [exSession] (fun _ => Except.error ()) rfl

/-- C8: when review-request parsing fails in any way — service error,
response with no parseable JSON document, or a non-object value — the
parser returns `{course_id: null, unit: null, topics: []}`, and the caller
rejects any request whose parsed course id is not truthy with the fixed
user-facing message, for every store and every synthesis oracle: selection
and synthesis are never reached. -/
theorem c8_parse_failure_rejected :
    (∀ (nl : Str) (courses : List Course),
      parse_review_request nl courses (Except.error ()) = nullParsedRequest) ∧
    (∀ (nl : Str) (courses : List Course) (t : String),
      jsonLoads (extract_json_text (pyStrip t.data)) = none →
      parse_review_request nl courses (Except.ok t) = nullParsedRequest) ∧
    (∀ (nl : Str) (courses : List Course) (llm : Except Unit String) (v : Json),
      llmJson llm = some v → (∀ kvs, v ≠ Json.obj kvs) →
      parse_review_request nl courses llm = nullParsedRequest) ∧
    (∀ (db : DB) (nl : Str) (llmParse : Except Unit String)
        (llmGen : Str → Except Unit String),
      pyTruthy (parse_review_request nl (get_courses db) llmParse).course_id = false →
      generate_review_from_request db nl llmParse llmGen =
        ReviewResult.failure
          "Could not understand which course you want to review. Please specify a course name or topic.".data) := by
  refine ⟨fun nl courses => rfl, ?_, ?_, ?_⟩
  · intro nl courses t hload
    unfold parse_review_request llmJson
    simp [hload]
  · intro nl courses llm v hv hnobj
    unfold parse_review_request
    rw [hv]
    rcases v with _ | b | n | sv | elems | kvs
    · rfl
    · rfl
    · rfl
    · rfl
    · rfl
    · exact absurd rfl (hnobj kvs)
  · intro db nl llmParse llmGen h
    unfold generate_review_from_request
    simp [h]

/-- C8 witness: a prose completion response makes the parser return the
null request, and the caller rejects the request with the user-facing
message for an arbitrary store. -/
theorem c8_parse_failure_rejected_witness :
    parse_review_request "review CS101".data (get_courses exDB)
      (Except.ok "I could not figure out the course, sorry.") = nullParsedRequest ∧
    generate_review_from_request exDB "review CS101".data
      (Except.ok "I could not figure out the course, sorry.") (fun _ => Except.error ()) =
      ReviewResult.failure
        "Could not understand which course you want to review. Please specify a course name or topic.".data := by
  constructor
  · exact c8_parse_failure_rejected.2.1 "review CS101".data (get_courses exDB)
      "I could not figure out the course, sorry." (by rfl)
  · exact c8_parse_failure_rejected.2.2.2 exDB "review CS101".data
      (Except.ok "I could not figure out the course, sorry.") (fun _ => Except.error ())
      (by rfl)

/-! ## Lemmas about the defensive JSON extraction -/

theorem pySlice_ofNat (s : Str) (a b : Nat) :
    pySlice s (Int.ofNat a) (Int.ofNat b) = sliceNat s a b := by
  unfold pySlice pySliceIdx sliceNat
  have hb : ¬ (Int.ofNat b < 0) := Int.not_lt.mpr (Int.ofNat_nonneg b)
  have ha : ¬ (Int.ofNat a < 0) := Int.not_lt.mpr (Int.ofNat_nonneg a)
  simp only [hb, ha, if_false]
  rw [show (Int.ofNat b).toNat = b from rfl, show (Int.ofNat a).toNat = a from rfl]
  have htake : s.take (min b s.length) = s.take b := by
    by_cases h : b ≤ s.length
    · rw [Nat.min_eq_left h]
    · rw [Nat.min_eq_right (by omega), List.take_length,
        List.take_of_length_le (by omega)]
  rw [htake]
  by_cases h : a ≤ s.length
  · rw [Nat.min_eq_left h]
  · rw [Nat.min_eq_right (by omega)]
    have hlen : (s.take b).length ≤ s.length := by
      rw [List.length_take]
      omega
    rw [List.drop_eq_nil_of_le hlen, List.drop_eq_nil_of_le (by omega)]

theorem mem_pyStrip {c : Char} {s : Str} (h : c ∈ pyStrip s) : c ∈ s := by
  unfold pyStrip at h
  rw [List.mem_reverse] at h
  have h2 := (List.dropWhile_sublist isPySpace).subset h
  rw [List.mem_reverse] at h2
  exact (List.dropWhile_sublist isPySpace).subset h2

theorem mem_pySlice {c : Char} {s : Str} {i j : Int} (h : c ∈ pySlice s i j) : c ∈ s := by
  unfold pySlice at h
  exact (List.take_sublist _ s).subset ((List.drop_sublist _ _).subset h)

theorem mem_sliceNat {c : Char} {s : Str} {i j : Nat} (h : c ∈ sliceNat s i j) : c ∈ s := by
  unfold sliceNat at h
  exact (List.take_sublist _ s).subset ((List.drop_sublist _ _).subset h)

theorem mem_extract_json_text {c : Char} {s : Str} (h : c ∈ extract_json_text s) : c ∈ s := by
  unfold extract_json_text at h
  by_cases h1 : containsSub s "```json".data = true
  · rw [if_pos h1] at h
    exact mem_pySlice (mem_pyStrip h)
  · rw [if_neg h1] at h
    by_cases h2 : containsSub s "\x7b".data = true
    · rw [if_pos h2] at h
      exact mem_pySlice h
    · rw [if_neg h2] at h
      exact h

theorem mem_skipWs {c : Char} {cs : Str} (h : c ∈ skipWs cs) : c ∈ cs :=
  (List.dropWhile_sublist isJsonWs).subset h

theorem occursAt_lt_length {s sub : Str} {j : Nat} (hsub : sub ≠ [])
    (h : occursAt s sub j) : j < s.length := by
  have h1 := occursAt_length_le hsub h
  have h2 : 0 < sub.length := List.length_pos.mpr hsub
  omega

theorem parseElems_arr :
    ∀ (fuel : Nat) (cs : Str) (acc : List Json) (v : Json) (rest : Str),
      parseElems fuel cs acc = some (v, rest) → ∃ es, v = Json.arr es := by
  intro fuel
  induction fuel with
  | zero => intro cs acc v rest h; exact absurd h (by simp [parseElems])
  | succ m ih =>
    intro cs acc v rest h
    rw [parseElems] at h
    rcases hpv : parseValue m cs with _ | pr
    · rw [hpv] at h
      exact absurd h (by simp)
    · rw [hpv] at h
      rcases pr with ⟨v1, r1⟩
      simp only at h
      split at h
      · exact ih _ _ _ _ h
      · simp only [Option.some_inj, Prod.mk.injEq] at h
        exact ⟨_, h.1.symm⟩
      · exact absurd h (by simp)

theorem parseNumber_num {cs : Str} {v : Json} {rest : Str}
    (h : parseNumber cs = some (v, rest)) : ∃ n, v = Json.num n := by
  unfold parseNumber at h
  repeat' split at h
  all_goals
    first
      | (simp only [Option.some_inj, Prod.mk.injEq] at h
         exact ⟨_, h.1.symm⟩)
      | exact absurd h (by simp)

theorem parseValue_obj_mem :
    ∀ (fuel : Nat) (cs : Str) (kvs : List (Str × Json)) (rest : Str),
      parseValue fuel cs = some (Json.obj kvs, rest) → '{' ∈ cs := by
  intro fuel
  rcases fuel with _ | m
  · intro cs kvs rest h
    exact absurd h (by simp [parseValue])
  · intro cs kvs rest h
    rw [parseValue] at h
    split at h
    case h_1 r heq =>
      apply mem_skipWs
      rw [heq]
      exact List.mem_cons_self _ _
    case h_2 r heq =>
      split at h
      · exact absurd h (by simp)
      · obtain ⟨es, hes⟩ := parseElems_arr m r [] _ _ h
        exact absurd hes (by simp)
    case h_3 r heq =>
      rcases hps : parseStringRest r with _ | pr
      · rw [hps] at h
        exact absurd h (by simp)
      · rw [hps] at h
        simp at h
    case h_4 => exact absurd h (by simp)
    case h_5 => exact absurd h (by simp)
    case h_6 => exact absurd h (by simp)
    case h_7 c2 r heq hne1 hne2 hne3 hne4 hne5 hne6 =>
      split at h
      · obtain ⟨n, hn⟩ := parseNumber_num h
        exact absurd hn (by simp)
      · exact absurd h (by simp)
    case h_8 => exact absurd h (by simp)

theorem jsonLoads_obj_mem {cs : Str} {kvs : List (Str × Json)}
    (h : jsonLoads cs = some (Json.obj kvs)) : '{' ∈ cs := by
  unfold jsonLoads at h
  rcases hpv : parseValue (cs.length + 1) cs with _ | pr
  · rw [hpv] at h
    exact absurd h (by simp)
  · rw [hpv] at h
    rcases pr with ⟨v, rest⟩
    simp only at h
    split at h
    · simp only [Option.some_inj] at h
      subst h
      exact parseValue_obj_mem _ cs kvs rest hpv
    · exact absurd h (by simp)

theorem analyze_session_confusion_default (convs : List Conversation)
    (courses : List Course) (llm : Except Unit String)
    (h : ∀ kvs, llmJson llm ≠ some (Json.obj kvs)) :
    analyze_session_confusion convs courses llm = nullAnalysis := by
  unfold analyze_session_confusion
  rcases hv : llmJson llm with _ | v
  · rfl
  · rcases v with _ | b | n | sv | elems | kvs
    · rfl
    · rfl
    · rfl
    · rfl
    · rfl
    · exact absurd hv (h kvs)

theorem parse_review_request_default (nl : Str) (courses : List Course)
    (llm : Except Unit String)
    (h : ∀ kvs, llmJson llm ≠ some (Json.obj kvs)) :
    parse_review_request nl courses llm = nullParsedRequest := by
  unfold parse_review_request
  rcases hv : llmJson llm with _ | v
  · rfl
  · rcases v with _ | b | n | sv | elems | kvs
    · rfl
    · rfl
    · rfl
    · rfl
    · rfl
    · exact absurd hv (h kvs)

theorem grade_student_answer_default (q qt a : Str) (h0 : Option Str)
    (llm : Except Unit String)
    (h : ∀ kvs, llmJson llm ≠ some (Json.obj kvs)) :
    grade_student_answer q qt a h0 llm = fallbackGrading := by
  unfold grade_student_answer
  rcases hv : llmJson llm with _ | v
  · rfl
  · rcases v with _ | b | n | sv | elems | kvs
    · rfl
    · rfl
    · rfl
    · rfl
    · rfl
    · exact absurd hv (h kvs)

/-- C5: the defensive JSON extraction shared by classification, parsing,
synthesis and grading.  (1) When the text contains a fenced block labeled
`json` (the marker's first occurrence at `i`, the next fence at `k`), the
candidate object is the stripped text between them.  (2) Otherwise, when
the text contains a brace, the candidate is the substring from the first
`{` to the last `}` inclusive.  (3) A text with no `{` can never yield a
JSON object, and (4)/(5) each of the four callers then falls back to its
defaults (null analysis, null parsed request, neutral grading fallback,
fixed review fallback). -/
theorem c5_defensive_extraction :
    (∀ (s : Str) (i k : Nat),
      occursAt s "```json".data i →
      (∀ j, j < i → ¬ occursAt s "```json".data j) →
      occursAt s "```".data k → i + 7 ≤ k →
      (∀ j, j < k → i + 7 ≤ j → ¬ occursAt s "```".data j) →
      extract_json_text s = pyStrip (sliceNat s (i + 7) k)) ∧
    (∀ (s : Str) (i k : Nat),
      (∀ j, j < s.length → ¬ occursAt s "```json".data j) →
      occursAt s "\x7b".data i → (∀ j, j < i → ¬ occursAt s "\x7b".data j) →
      occursAt s "\x7d".data k → (∀ j, j < s.length → k < j → ¬ occursAt s "\x7d".data j) →
      extract_json_text s = sliceNat s i (k + 1)) ∧
    (∀ (t : String) (kvs : List (Str × Json)), ('{' ∈ t.data → False) →
      jsonLoads (extract_json_text (pyStrip t.data)) ≠ some (Json.obj kvs)) ∧
    (∀ (t : String) (convs : List Conversation) (courses : List Course)
        (nl q qt a : Str) (h : Option Str), ('{' ∈ t.data → False) →
      analyze_session_confusion convs courses (Except.ok t) = nullAnalysis ∧
      parse_review_request nl courses (Except.ok t) = nullParsedRequest ∧
      grade_student_answer q qt a h (Except.ok t) = fallbackGrading) ∧
    (∀ (sessions : List SessionData) (llm : Str → Except Unit String) (t : String),
      llm (buildReviewContext sessions) = Except.ok t → ('{' ∈ t.data → False) →
      jsonLoads (extract_json_text (pyStrip t.data)) = none →
      generate_review_content sessions llm = fallbackReview) := by
  have hobjfree : ∀ (t : String), ('{' ∈ t.data → False) →
      ∀ kvs, llmJson (Except.ok t) ≠ some (Json.obj kvs) := by
    intro t hnb kvs h
    exact hnb (mem_pyStrip (mem_extract_json_text (jsonLoads_obj_mem h)))
  refine ⟨?_, ?_, ?_, ?_, ?_⟩
  · intro s i k hocc hmin hocc3 hge hmin3
    have hfind : findFrom s "```json".data 0 = some i :=
      (findFrom_eq_some_iff (by decide)).mpr ⟨hocc, Nat.zero_le _, fun j _ hj => hmin j hj⟩
    have hcontains : containsSub s "```json".data = true := by
      unfold containsSub
      rw [hfind]
      rfl
    have hfind3 : findFrom s "```".data (i + 7) = some k :=
      (findFrom_eq_some_iff (by decide)).mpr
        ⟨hocc3, hge, fun j hge2 hlt => hmin3 j hlt hge2⟩
    unfold extract_json_text
    rw [if_pos hcontains]
    show pyStrip (pySlice s (pyFind s "```json".data 0 + 7)
      (pyFind s "```".data (pyFind s "```json".data 0 + 7).toNat)) = _
    rw [show pyFind s "```json".data 0 = Int.ofNat i from by unfold pyFind; rw [hfind]]
    rw [show (Int.ofNat i + 7 : Int) = Int.ofNat (i + 7) from rfl]
    rw [show (Int.ofNat (i + 7)).toNat = i + 7 from rfl]
    rw [show pyFind s "```".data (i + 7) = Int.ofNat k from by unfold pyFind; rw [hfind3]]
    rw [pySlice_ofNat]
  · intro s i k hnofence hocc hmin hocc2 hmax
    have hnone : containsSub s "```json".data = false :=
      (containsSub_eq_false_iff (by decide)).mpr
        (fun j hocc3 => hnofence j (occursAt_lt_length (by decide) hocc3) hocc3)
    have hfind : findFrom s "\x7b".data 0 = some i :=
      (findFrom_eq_some_iff (by decide)).mpr ⟨hocc, Nat.zero_le _, fun j _ hj => hmin j hj⟩
    have hcontains : containsSub s "\x7b".data = true := by
      unfold containsSub
      rw [hfind]
      rfl
    have hrfind : rfindIn s "\x7d".data = some k :=
      (rfindIn_eq_some_iff (by decide)).mpr
        ⟨hocc2, fun j hj hocc3 => hmax j (occursAt_lt_length (by decide) hocc3) hj hocc3⟩
    unfold extract_json_text
    rw [if_neg (by rw [hnone]; exact Bool.noConfusion), if_pos hcontains]
    show pySlice s (pyFind s "\x7b".data 0) (pyRfind s "\x7d".data + 1) = _
    rw [show pyFind s "\x7b".data 0 = Int.ofNat i from by unfold pyFind; rw [hfind]]
    rw [show pyRfind s "\x7d".data = Int.ofNat k from by unfold pyRfind; rw [hrfind]]
    rw [show (Int.ofNat k + 1 : Int) = Int.ofNat (k + 1) from rfl]
    rw [pySlice_ofNat]
  · intro t kvs hnb h
    exact hobjfree t hnb kvs h
  · intro t convs courses nl q qt a h hnb
    exact ⟨analyze_session_confusion_default convs courses (Except.ok t) (hobjfree t hnb),
      parse_review_request_default nl courses (Except.ok t) (hobjfree t hnb),
      grade_student_answer_default q qt a h (Except.ok t) (hobjfree t hnb)⟩
  · intro sessions llm t hok hnb hload
    unfold generate_review_content llmJson
    simp [hok, hload]

/-- C5 witness: the extraction parts at concrete completion responses — a
fenced response, an unfenced response with braces, and a prose response
that makes all four callers fall back. -/
theorem c5_defensive_extraction_witness :
    extract_json_text "Sure! ```json\n\x7b\"a\": 1\x7d\n``` bye".data =
      pyStrip (sliceNat "Sure! ```json\n\x7b\"a\": 1\x7d\n``` bye".data 13 23) ∧
    extract_json_text "ans: \x7b\"a\": 1\x7d ok".data =
      sliceNat "ans: \x7b\"a\": 1\x7d ok".data 5 (12 + 1) ∧
    jsonLoads (extract_json_text (pyStrip "no json here".data)) ≠
      some (Json.obj []) ∧
    analyze_session_confusion [] [] (Except.ok "no json here") = nullAnalysis ∧
    generate_review_content [] (fun _ => Except.ok "no json here") = fallbackReview := by
  refine ⟨?_, ?_, ?_, ?_, ?_⟩
  · exact c5_defensive_extraction.1 "Sure! ```json\n\x7b\"a\": 1\x7d\n``` bye".data 6 23
      (by decide) (by decide) (by decide) (by decide) (by decide)
  · exact c5_defensive_extraction.2.1 "ans: \x7b\"a\": 1\x7d ok".data 5 12
      (by decide) (by decide) (by decide) (by decide) (by decide)
  · exact c5_defensive_extraction.2.2.1 "no json here" [] (by decide)
  · exact (c5_defensive_extraction.2.2.2.1 "no json here" [] [] [] [] [] [] none
      (by decide)).1
  · exact c5_defensive_extraction.2.2.2.2 [] (fun _ => Except.ok "no json here")
      "no json here" rfl (by decide) (by rfl)
